import Mathlib

/-
  Verification of the quifin reminder engine against its specification.

  The definitions below are a shallow embedding of the reminder scheduling,
  date arithmetic, gateway-target resolution and sweep orchestration code
  (src/unnamed/part_009 and src/lib/server/subscriptions.ts).  JavaScript
  Date arithmetic is modelled by the ECMAScript day-number conversion
  (proleptic Gregorian calendar), including the rule that the Date
  constructors map years 0..99 to 1900+year, and the range clamp on time
  values where a claim quantifies over inputs that can reach it.  Network
  delivery and the database uniqueness constraint on the reminder ledger
  are modelled by oracles supplied in the sweep environment.
-/

set_option maxHeartbeats 1600000

namespace Quifin

/-! ## Calendar data model -/

/-- A civil (wall-clock) calendar date. -/
structure Ymd where
  year : Int
  month : Int
  day : Int
deriving DecidableEq, Repr

/-- Gregorian leap-year rule (proleptic, as used by ECMAScript Date). -/
def isLeapYear (y : Int) : Prop :=
  (y % 4 = 0 ∧ y % 100 ≠ 0) ∨ y % 400 = 0

instance (y : Int) : Decidable (isLeapYear y) := by
  unfold isLeapYear; infer_instance

/-- Number of days in a month of the proleptic Gregorian calendar. -/
def daysInMonth (y m : Int) : Int :=
  if m = 2 then (if isLeapYear y then 29 else 28)
  else if m = 4 ∨ m = 6 ∨ m = 9 ∨ m = 11 then 30 else 31

/-- Day number (days since 1970-01-01) of a proleptic Gregorian civil date
    with month in 1..12.  This is the standard era-decomposition algorithm and
    models the day-number part of ECMAScript MakeDay for in-range months. -/
def daysFromCivil (y m d : Int) : Int :=
  let yAdj := y - (if m ≤ 2 then 1 else 0)
  let era := yAdj / 400
  let yoe := yAdj - era * 400
  let mp := (m + 9) % 12
  let doy := (153 * mp + 2) / 5 + d - 1
  let doe := yoe * 365 + yoe / 4 - yoe / 100 + doy
  era * 146097 + doe - 719468

/-- Civil date of a day number: the inverse of daysFromCivil.  Models the
    ECMAScript field extraction (getUTCFullYear, getUTCMonth, getUTCDate). -/
def civilFromDays (z : Int) : Ymd :=
  let z2 := z + 719468
  let era := z2 / 146097
  let doe := z2 - era * 146097
  let yoe := (doe - doe / 1460 + doe / 36524 - doe / 146096) / 365
  let y := yoe + era * 400
  let doy := doe - (365 * yoe + yoe / 4 - yoe / 100)
  let mp := (5 * doy + 2) / 153
  let d := doy - (153 * mp + 2) / 5 + 1
  let m := (mp + 2) % 12 + 1
  { year := y + (if m ≤ 2 then 1 else 0), month := m, day := d }

/-- A proleptic Gregorian calendar date is real: month in range and day in
    range for that month of that year. -/
def isRealYmd (y m d : Int) : Prop :=
  1 ≤ m ∧ m ≤ 12 ∧ 1 ≤ d ∧ d ≤ daysInMonth y m

instance (y m d : Int) : Decidable (isRealYmd y m d) := by
  unfold isRealYmd; infer_instance

/-! ## ECMAScript Date model -/

/-- The ECMAScript MakeFullYear rule used by the Date constructors and
    Date.UTC: integer years 0..99 denote 1900+year. -/
def jsAdjustYear (y : Int) : Int :=
  if 0 ≤ y ∧ y ≤ 99 then 1900 + y else y

/-- ECMAScript MakeDay: day number for a 0-based month and a day-of-month
    field, both normalized as arbitrary integers. -/
def jsMakeDay (year month date : Int) : Int :=
  daysFromCivil (year + month / 12) (month % 12 + 1) 1 + (date - 1)

/-- Date.UTC(y, m, d) restricted to whole days, with the two-digit-year rule
    and the ECMAScript time-value clamp of 100 000 000 days from the epoch;
    none models an invalid Date (NaN time value). -/
def jsDateUTCDay (y m d : Int) : Option Int :=
  let k := jsMakeDay (jsAdjustYear y) m d
  if k.natAbs ≤ 100000000 then some k else none

/-! ## Number-to-string and ISO date strings -/

/-- Digit recursion with explicit fuel so that the kernel can evaluate it;
    one unit of fuel is consumed per digit. -/
def natDigitsAux : Nat → Nat → List Char
  | 0, _ => []
  | fuel + 1, n =>
    if n < 10 then [Nat.digitChar n]
    else natDigitsAux fuel (n / 10) ++ [Nat.digitChar (n % 10)]

/-- Decimal digit characters of a natural number, most significant first, as
    produced by the JavaScript Number-to-String conversion on whole numbers
    (n + 1 units of fuel always suffice for the digits of n). -/
def natDigits (n : Nat) : List Char :=
  natDigitsAux (n + 1) n

/-- Character list of the JavaScript String() conversion of an integer. -/
def intChars (n : Int) : List Char :=
  if n < 0 then '-' :: natDigits n.natAbs else natDigits n.natAbs

/-- String.prototype.padStart with a single pad character, on char lists. -/
def padStartChars (l : List Char) (len : Nat) (c : Char) : List Char :=
  List.replicate (len - l.length) c ++ l

/-- toIsoDate from the reminder module: pads the year to four and the month
    and day to two characters and joins them with dashes. -/
def toIsoDate (p : Ymd) : String :=
  String.mk (padStartChars (intChars p.year) 4 '0' ++
    '-' :: (padStartChars (intChars p.month) 2 '0' ++
    '-' :: padStartChars (intChars p.day) 2 '0'))

/-- The string getUTC* field extraction renders for an invalid Date: every
    field is NaN, and the year is padded to four characters. -/
def invalidDateIso : String := "0NaN-NaN-NaN"

/-- Numeric value of an ASCII digit character, as JavaScript Number() obtains
    it from a digit string. -/
def digitVal (c : Char) : Int :=
  (c.toNat : Int) - 48

/-- The anchored regex (\d ​four)-(\d two)-(\d two) used by addDaysToIsoDate,
    isIsoDateString and formatIsoDateForDisplay, returning the three numeric
    captures. -/
def parseIsoYmd (s : String) : Option (Int × Int × Int) :=
  match s.data with
  | [y1, y2, y3, y4, h1, m1, m2, h2, d1, d2] =>
    if y1.isDigit && y2.isDigit && y3.isDigit && y4.isDigit && h1 == '-' &&
        m1.isDigit && m2.isDigit && h2 == '-' && d1.isDigit && d2.isDigit then
      some (1000 * digitVal y1 + 100 * digitVal y2 + 10 * digitVal y3 + digitVal y4,
        10 * digitVal m1 + digitVal m2,
        10 * digitVal d1 + digitVal d2)
    else none
  | _ => none

/-- addDaysToIsoDate from the reminder module: strings that miss the strict
    format are returned unchanged; otherwise the date is shifted through
    Date.UTC and re-rendered from the getUTC* fields. -/
def addDaysToIsoDate (isoDate : String) (days : Int) : String :=
  match parseIsoYmd isoDate with
  | none => isoDate
  | some (y, m, d) =>
    match jsDateUTCDay y (m - 1) (d + days) with
    | none => invalidDateIso
    | some k => toIsoDate (civilFromDays k)

/-- addDaysToYmd from the reminder module.  The time-value clamp is not
    modelled here: every use in this development constrains the year to
    100..9999, far from the clamp. -/
def addDaysToYmd (year month day days : Int) : Ymd :=
  civilFromDays (jsMakeDay (jsAdjustYear year) (month - 1) (day + days))

/-- isIsoDateString from src/lib/server/subscriptions.ts: strict format
    check, month range check, then a day range check against the length of
    the month obtained from the Date constructor (which applies the
    two-digit-year rule). -/
def isIsoDateString (value : String) : Bool :=
  match parseIsoYmd value with
  | none => false
  | some (y, m, d) =>
    if m < 1 ∨ m > 12 then false
    else decide (1 ≤ d ∧ d ≤ daysInMonth (jsAdjustYear y) m)

/-! ## Time zone resolver and scheduler model

  A time zone is modelled as a function giving the offset in milliseconds
  that Intl.DateTimeFormat reports at a given instant.  The getDateTimeParts
  field extraction then reads the civil fields of the offset instant. -/

/-- The civil wall-clock fields Intl.DateTimeFormat reports. -/
structure DateTimeParts where
  year : Int
  month : Int
  day : Int
  hour : Int
  minute : Int
  second : Int
deriving DecidableEq, Repr

/-- getDateTimeParts from the reminder module, with the zone database
    abstracted as an offset function. -/
def getDateTimeParts (instantMs : Int) (off : Int → Int) : DateTimeParts :=
  let localMs := instantMs + off instantMs
  let k := localMs / 86400000
  let msOfDay := localMs % 86400000
  let c := civilFromDays k
  { year := c.year, month := c.month, day := c.day,
    hour := msOfDay / 3600000, minute := msOfDay / 60000 % 60,
    second := msOfDay / 1000 % 60 }

/-- Date.UTC with full time fields.  The time-value clamp is not modelled:
    all scheduler theorems constrain years to 100..9999, far from it. -/
def jsDateUTCMs (y mon d h mi s : Int) : Int :=
  jsMakeDay (jsAdjustYear y) mon d * 86400000 +
    h * 3600000 + mi * 60000 + s * 1000

/-- getTimeZoneOffsetMs from the reminder module. -/
def getTimeZoneOffsetMs (off : Int → Int) (instantMs : Int) : Int :=
  let parts := getDateTimeParts instantMs off
  jsDateUTCMs parts.year (parts.month - 1) parts.day parts.hour parts.minute
    parts.second - instantMs

/-- The bounded offset-probing loop of zonedDateTimeToUtcMs: five attempts,
    convergence within one second. -/
def zonedLoop (off : Int → Int) (targetAsUtcMs : Int) : Nat → Int → Int
  | 0, guess => guess
  | fuel + 1, guess =>
    let offsetMs := getTimeZoneOffsetMs off guess
    let corrected := targetAsUtcMs - offsetMs
    if (corrected - guess).natAbs < 1000 then corrected
    else zonedLoop off targetAsUtcMs fuel corrected

/-- zonedDateTimeToUtcMs from the reminder module. -/
def zonedDateTimeToUtcMs (year month day hour minute : Int) (off : Int → Int) : Int :=
  let targetAsUtcMs := jsDateUTCMs year (month - 1) day hour minute 0
  zonedLoop off targetAsUtcMs 5 targetAsUtcMs

def SCHEDULE_HOUR : Int := 5

def SCHEDULE_MINUTE : Int := 30

/-- computeNextDailyRunAtMs from the reminder module. -/
def computeNextDailyRunAtMs (nowMs : Int) (off : Int → Int) : Int :=
  let localNow := getDateTimeParts nowMs off
  let hasPassedTodayRun := localNow.hour > SCHEDULE_HOUR ∨
    (localNow.hour = SCHEDULE_HOUR ∧ localNow.minute ≥ SCHEDULE_MINUTE)
  let targetDate := if hasPassedTodayRun then
      addDaysToYmd localNow.year localNow.month localNow.day 1
    else ⟨localNow.year, localNow.month, localNow.day⟩
  zonedDateTimeToUtcMs targetDate.year targetDate.month targetDate.day
    SCHEDULE_HOUR SCHEDULE_MINUTE off

/-- The timer delay armed by scheduleNextDailyReminderRun:
    Math.max(1000, nextRunAtMs - now). -/
def scheduleDelayMs (nowMs : Int) (off : Int → Int) : Int :=
  max 1000 (computeNextDailyRunAtMs nowMs off - nowMs)

/-- getTodayIsoInReminderTimeZone from the reminder module. -/
def getTodayIsoInReminderTimeZone (nowMs : Int) (off : Int → Int) : String :=
  let p := getDateTimeParts nowMs off
  toIsoDate ⟨p.year, p.month, p.day⟩

/-! ## JavaScript string helpers for gateway resolution -/

/-- White space and line terminators removed by String.prototype.trim. -/
def isJsWhitespace (c : Char) : Bool :=
  decide (c.toNat = 9 ∨ c.toNat = 10 ∨ c.toNat = 11 ∨ c.toNat = 12 ∨
    c.toNat = 13 ∨ c.toNat = 32 ∨ c.toNat = 160 ∨ c.toNat = 5760 ∨
    (8192 ≤ c.toNat ∧ c.toNat ≤ 8202) ∨ c.toNat = 8232 ∨ c.toNat = 8233 ∨
    c.toNat = 8239 ∨ c.toNat = 8287 ∨ c.toNat = 12288 ∨ c.toNat = 65279)

/-- String.prototype.trim. -/
def jsTrim (s : String) : String :=
  String.mk (((s.data.dropWhile isJsWhitespace).reverse.dropWhile
    isJsWhitespace).reverse)

/-- The regex replace removing leading and trailing slash runs, applied to
    the topic in resolveNtfySettings. -/
def stripSlashes (s : String) : String :=
  String.mk (((s.data.dropWhile (· == '/')).reverse.dropWhile (· == '/')).reverse)

/-- String.prototype.split with a single-character separator, on char
    lists: split points at every separator, keeping empty pieces. -/
def splitOnChar (sep : Char) : List Char → List (List Char)
  | [] => [[]]
  | c :: rest =>
    if c = sep then [] :: splitOnChar sep rest
    else
      match splitOnChar sep rest with
      | [] => [[c]]
      | g :: gs => (c :: g) :: gs

/-- String.prototype.split with a single-character separator. -/
def jsSplit (s : String) (sep : Char) : List String :=
  (splitOnChar sep s.data).map String.mk

/-! ## WHATWG URL model

  Model of the parts of the URL class the gateway client uses: parsing an
  absolute URL of the form scheme://host[/path][?query][#fragment], reading
  and assigning pathname, and serializing.  Simplifications, each irrelevant
  to the resolution logic under verification: the authority is kept as one
  ASCII-lowercased component (no userinfo/port/IDNA processing), the path is
  kept verbatim at parse time, and URLs without a double slash after the
  scheme are not modelled.  The pathname setter applies the path state of
  the basic URL parser: split on slashes, single-dot and double-dot segment
  processing, and the path percent-encode set. -/

structure URLRec where
  scheme : String
  host : String
  pathname : String
  search : String
  fragment : String
deriving DecidableEq, Repr

def isAsciiAlpha (c : Char) : Bool :=
  decide ((65 ≤ c.toNat ∧ c.toNat ≤ 90) ∨ (97 ≤ c.toNat ∧ c.toNat ≤ 122))

def isSchemeChar (c : Char) : Bool :=
  isAsciiAlpha c || c.isDigit || c == '+' || c == '-' || c == '.'

def asciiLower (c : Char) : Char :=
  if 65 ≤ c.toNat ∧ c.toNat ≤ 90 then Char.ofNat (c.toNat + 32) else c

/-- UTF-8 bytes of a scalar value. -/
def utf8Bytes (c : Char) : List Nat :=
  let n := c.toNat
  if n < 128 then [n]
  else if n < 2048 then [192 + n / 64, 128 + n % 64]
  else if n < 65536 then [224 + n / 4096, 128 + n / 64 % 64, 128 + n % 64]
  else [240 + n / 262144, 128 + n / 4096 % 64, 128 + n / 64 % 64, 128 + n % 64]

/-- Uppercase hexadecimal digit (values 0..15). -/
def hexUpper : Nat → Char
  | 0 => '0' | 1 => '1' | 2 => '2' | 3 => '3'
  | 4 => '4' | 5 => '5' | 6 => '6' | 7 => '7'
  | 8 => '8' | 9 => '9' | 10 => 'A' | 11 => 'B'
  | 12 => 'C' | 13 => 'D' | 14 => 'E' | _ => 'F'

def percentEncodeByte (b : Nat) : List Char :=
  ['%', hexUpper (b / 16), hexUpper (b % 16)]

/-- Characters encodeURIComponent keeps verbatim: ASCII letters, digits,
    and - _ . ! ~ * quote ( ). -/
def isUriUnreserved (c : Char) : Bool :=
  decide ((65 ≤ c.toNat ∧ c.toNat ≤ 90) ∨ (97 ≤ c.toNat ∧ c.toNat ≤ 122) ∨
    (48 ≤ c.toNat ∧ c.toNat ≤ 57) ∨ c.toNat = 45 ∨ c.toNat = 95 ∨
    c.toNat = 46 ∨ c.toNat = 33 ∨ c.toNat = 126 ∨ c.toNat = 42 ∨
    c.toNat = 39 ∨ c.toNat = 40 ∨ c.toNat = 41)

/-- encodeURIComponent. -/
def encodeURIComponent (s : String) : String :=
  String.mk (s.data.flatMap (fun c =>
    if isUriUnreserved c then [c] else (utf8Bytes c).flatMap percentEncodeByte))

/-- The path percent-encode set of the URL standard: C0 controls, space,
    double quote, angle brackets, backquote, question mark, hash, curly
    braces and all non-ASCII. -/
def inPathEncodeSet (c : Char) : Bool :=
  decide (c.toNat ≤ 31 ∨ c.toNat = 32 ∨ c.toNat = 34 ∨ c.toNat = 60 ∨
    c.toNat = 62 ∨ c.toNat = 96 ∨ c.toNat = 63 ∨ c.toNat = 35 ∨
    c.toNat = 123 ∨ c.toNat = 125 ∨ 127 ≤ c.toNat)

def encodePathChars (l : List Char) : List Char :=
  l.flatMap (fun c =>
    if inPathEncodeSet c then (utf8Bytes c).flatMap percentEncodeByte else [c])

/-- A single-dot path segment per the URL standard ("." or a
    percent-encoded variant, case-insensitive). -/
def isSingleDotSeg (l : List Char) : Bool :=
  let s := l.map asciiLower
  s = ['.'] || s = ['%', '2', 'e']

/-- A double-dot path segment per the URL standard. -/
def isDoubleDotSeg (l : List Char) : Bool :=
  let s := l.map asciiLower
  s = ['.', '.'] || s = ['.', '%', '2', 'e'] || s = ['%', '2', 'e', '.'] ||
    s = ['%', '2', 'e', '%', '2', 'e']

/-- The path state of the basic URL parser on a list of raw segments:
    double-dot segments shorten the path, single-dot segments are dropped
    (both leave an empty segment when they end the input), and other
    segments are percent-encoded with the path set. -/
def processPathSegs : List (List Char) → List (List Char) → List (List Char)
  | acc, [] => acc
  | acc, [seg] =>
    if isDoubleDotSeg seg then acc.dropLast ++ [[]]
    else if isSingleDotSeg seg then acc ++ [[]]
    else acc ++ [encodePathChars seg]
  | acc, seg :: rest =>
    if isDoubleDotSeg seg then processPathSegs acc.dropLast rest
    else if isSingleDotSeg seg then processPathSegs acc rest
    else processPathSegs (acc ++ [encodePathChars seg]) rest

/-- The pathname setter of the URL class: basic URL parsing of the assigned
    string with path start state as state override. -/
def setPathname (u : URLRec) (p : String) : URLRec :=
  let segs := match splitOnChar '/' p.data with
    | [] :: rest => rest
    | other => other
  let processed := processPathSegs [] segs
  { u with pathname := String.mk ((processed.map (fun seg => '/' :: seg)).flatten) }

/-- A host character accepted by this model of new URL: ASCII letters,
    digits, dot and hyphen.  The real parser also accepts userinfo, an
    explicit port, IP literals and non-ASCII hosts (through IDNA); those
    spellings are outside this model and parse to none, so every statement
    conditioned on a successful model parse is scoped to URLs of the form
    scheme://host[/path][?query][#fragment] with a plain ASCII host. -/
def isHostChar (c : Char) : Bool :=
  isAsciiAlpha c || c.isDigit || c == '.' || c == '-'

/-- The special-query percent-encode set of the URL standard: C0 controls,
    space, double quote, hash, angle brackets, apostrophe, DEL and all
    non-ASCII. -/
def inQueryEncodeSet (c : Char) : Bool :=
  decide (c.toNat ≤ 31 ∨ c.toNat = 32 ∨ c.toNat = 34 ∨ c.toNat = 35 ∨
    c.toNat = 60 ∨ c.toNat = 62 ∨ c.toNat = 39 ∨ 127 ≤ c.toNat)

/-- The fragment percent-encode set of the URL standard: C0 controls,
    space, double quote, angle brackets, backquote, DEL and all
    non-ASCII. -/
def inFragmentEncodeSet (c : Char) : Bool :=
  decide (c.toNat ≤ 31 ∨ c.toNat = 32 ∨ c.toNat = 34 ∨ c.toNat = 60 ∨
    c.toNat = 62 ∨ c.toNat = 96 ∨ 127 ≤ c.toNat)

/-- UTF-8 percent-encoding of the characters a given set selects. -/
def percentEncodeWith (f : Char → Bool) (l : List Char) : List Char :=
  l.flatMap (fun c =>
    if f c then (utf8Bytes c).flatMap percentEncodeByte else [c])

/-- new URL(input) on an absolute http or https URL with a plain ASCII
    host; none models the thrown TypeError and, beyond it, the spellings
    outside this model (other schemes, userinfo, ports, IP literals,
    non-ASCII hosts, slash counts other than two).  Following the basic URL
    parser, tabs and newlines are removed, leading and trailing C0
    controls and spaces are trimmed, the scheme and host are lowercased,
    backslashes terminate the host and separate path segments, the path is
    normalized segment-wise at parse time (dot segments collapse) and
    percent-encoded with the path set, and the query and fragment are
    percent-encoded with their sets. -/
def parseURL (s : String) : Option URLRec :=
  let cs0 := s.data.filter (fun c => c != (Char.ofNat 9) &&
    c != (Char.ofNat 10) && c != (Char.ofNat 13))
  let cs := ((cs0.dropWhile (fun c => c.toNat ≤ 32)).reverse.dropWhile
    (fun c => c.toNat ≤ 32)).reverse
  let schemeChars := cs.takeWhile (fun c => c != ':')
  let rest1 := cs.drop schemeChars.length
  match rest1 with
  | ':' :: '/' :: '/' :: rest2 =>
    if schemeChars ≠ [] ∧ isAsciiAlpha (schemeChars.headD ' ') ∧
        schemeChars.all isSchemeChar then
      let scheme := String.mk (schemeChars.map asciiLower)
      if scheme = "http" ∨ scheme = "https" then
        let hostChars := rest2.takeWhile (fun c => c != '/' && c != '?' &&
          c != '#' && c != (Char.ofNat 92))
        if hostChars ≠ [] ∧ hostChars.all isHostChar then
          let rest3 := rest2.drop hostChars.length
          let rawPath := rest3.takeWhile (fun c => c != '?' && c != '#')
          let pathChars := rawPath.map
            (fun c => if c = (Char.ofNat 92) then '/' else c)
          let rest4 := rest3.drop rawPath.length
          let searchChars := rest4.takeWhile (fun c => c != '#')
          let fragChars := rest4.drop searchChars.length
          let segs := if pathChars = [] then [([] : List Char)]
            else match splitOnChar '/' pathChars with
              | [] :: rest => rest
              | other => other
          let processed := processPathSegs [] segs
          some { scheme := scheme,
                 host := String.mk (hostChars.map asciiLower),
                 pathname := String.mk
                   ((processed.map (fun seg => '/' :: seg)).flatten),
                 search := String.mk (percentEncodeWith inQueryEncodeSet searchChars),
                 fragment := String.mk (percentEncodeWith inFragmentEncodeSet fragChars) }
        else none
      else none
    else none
  | _ => none

/-- URL serialization for this model. -/
def urlToString (u : URLRec) : String :=
  u.scheme ++ "://" ++ u.host ++ u.pathname ++ u.search ++ u.fragment

/-! ## Gateway target resolution -/

structure NtfySettings where
  ntfyUrl : String
  ntfyTopic : String
  ntfyBearerToken : String
deriving DecidableEq, Repr

structure ResolvedNtfySettings where
  topicUrl : String
  bearerToken : String
deriving DecidableEq, Repr

/-- The pair resolveNtfySettings returns: at most one of the fields is
    populated. -/
structure ResolveOutcome where
  config : Option ResolvedNtfySettings
  warning : Option String
deriving DecidableEq, Repr

/-- Array.prototype.join with a separator, on char lists. -/
def joinCharLists (sep : List Char) : List (List Char) → List Char
  | [] => []
  | [x] => x
  | x :: rest => x ++ sep ++ joinCharLists sep rest

/-- Array.prototype.join with a separator. -/
def joinStrings (sep : String) (parts : List String) : String :=
  String.mk (joinCharLists sep.data (parts.map String.data))

/-- resolveNtfySettings from the reminder module. -/
def resolveNtfySettings (settings : NtfySettings) : ResolveOutcome :=
  let trimmedUrl := jsTrim settings.ntfyUrl
  let trimmedTopic := stripSlashes (jsTrim settings.ntfyTopic)
  let trimmedToken := jsTrim settings.ntfyBearerToken
  if trimmedUrl = "" then
    { config := none,
      warning := some "ntfy configuration is missing: ntfy_url is required. Reminder send skipped." }
  else
    match parseURL trimmedUrl with
    | none =>
      { config := none,
        warning := some ("ntfy_url is not a valid URL (" ++ trimmedUrl ++
          "). Reminder send skipped.") }
    | some parsedUrl =>
      let hasTopicInUrl := (jsSplit parsedUrl.pathname '/').any
        (fun seg => seg.length > 0)
      if trimmedTopic = "" ∧ ¬hasTopicInUrl then
        { config := none,
          warning := some "ntfy configuration is incomplete: provide ntfy_topic or include topic in ntfy_url. Reminder send skipped." }
      else
        let finalUrl := if trimmedTopic ≠ "" then
            setPathname parsedUrl ("/" ++ joinStrings "/"
              (((jsSplit trimmedTopic '/').filter (fun t => t ≠ "")).map
                encodeURIComponent))
          else parsedUrl
        { config := some { topicUrl := urlToString finalUrl,
                           bearerToken := trimmedToken },
          warning := none }

/-! ## Test notification -/

/-- The optional unsaved-settings override accepted by
    sendTestNotification; absent fields model undefined. -/
structure NtfyOverride where
  ntfyUrl : Option String
  ntfyTopic : Option String
  ntfyBearerToken : Option String
deriving DecidableEq, Repr

/-- The settings object sendTestNotification resolves: the trimmed override
    fields (empty string when absent) when an override object is given,
    otherwise the stored settings.  The stored settings are a parameter
    standing for getNtfySettingsFromDatabase. -/
def testNotificationSettings (override : Option NtfyOverride)
    (stored : NtfySettings) : NtfySettings :=
  match override with
  | some o =>
    { ntfyUrl := (o.ntfyUrl.map jsTrim).getD "",
      ntfyTopic := (o.ntfyTopic.map jsTrim).getD "",
      ntfyBearerToken := (o.ntfyBearerToken.map jsTrim).getD "" }
  | none => stored

/-- sendTestNotification up to target resolution: it throws the resolution
    warning when no config results.  The subsequent outbound POST is
    external to this model; on resolution success the function returns the
    resolved target whose topicUrl is the targetUrl reported to callers. -/
def sendTestNotification (override : Option NtfyOverride)
    (stored : NtfySettings) : Except String ResolvedNtfySettings :=
  let settings := testNotificationSettings override stored
  let r := resolveNtfySettings settings
  match r.config, r.warning with
  | some config, none => .ok config
  | some _, some w => .error w
  | none, w => .error (w.getD "ntfy settings are incomplete.")

/-! ## Sweep orchestration

  Pure model of runReminderCheckInternal.  The subscription table, FX table
  and settings are snapshots in the environment; the outbound POST and the
  race on the unique index idx_reminder_log_unique are oracles: deliver
  gives the thrown message of a failed POST (none on a 2xx response), and
  insertRace gives the thrown duplicate-key message when a concurrent
  writer inserted the same composite key between the ledger check and the
  insert.  The rendered body (buildChargeReminderBody) is floating-point
  text formatting and does not influence any counter, ledger write or
  warning, so it is not part of the model; the amount column is carried
  nowhere for the same reason. -/

def REMINDER_KIND : String := "charge"

structure ReminderSubscriptionRow where
  id : String
  name : String
  currency : String
  cadence_months : Int
  next_charge_date : String
  remind_cancel : Int
  archived : Int
  cancel_url : Option String
  created_at : String
deriving DecidableEq, Repr

/-- One row of reminder_log, reduced to the columns of the unique index
    idx_reminder_log_unique; the sent_at and created_at payload columns are
    never read back by the sweep. -/
structure ReminderLogKey where
  subscription_id : String
  reminder_kind : String
  target_charge_date : String
  offset_days : Int
deriving DecidableEq, Repr

/-- The ORDER BY of the candidate query: next_charge_date ascending, then
    created_at ascending (lexicographic). -/
def subLe (a b : ReminderSubscriptionRow) : Prop :=
  a.next_charge_date < b.next_charge_date ∨
    (a.next_charge_date = b.next_charge_date ∧ a.created_at ≤ b.created_at)

instance : DecidableRel subLe := fun a b => by
  unfold subLe; infer_instance

instance : IsTotal ReminderSubscriptionRow subLe where
  total a b := by
    rcases lt_trichotomy a.next_charge_date b.next_charge_date with h | h | h
    · exact Or.inl (Or.inl h)
    · rcases le_total a.created_at b.created_at with h2 | h2
      · exact Or.inl (Or.inr ⟨h, h2⟩)
      · exact Or.inr (Or.inr ⟨h.symm, h2⟩)
    · exact Or.inr (Or.inl h)

instance : IsTrans ReminderSubscriptionRow subLe where
  trans a b c hab hbc := by
    rcases hab with h1 | ⟨h1, h1c⟩ <;> rcases hbc with h2 | ⟨h2, h2c⟩
    · exact Or.inl (lt_trans h1 h2)
    · exact Or.inl (h2 ▸ h1)
    · exact Or.inl (h1 ▸ h2)
    · exact Or.inr ⟨h1.trans h2, le_trans h1c h2c⟩

/-- The candidate query of the sweep: archived = 0, remind_cancel = 1,
    next_charge_date = target, ordered by charge date then creation order.
    The ORDER BY is modelled as a stable sort of the filtered table. -/
def selectSubscriptionsByDate (subs : List ReminderSubscriptionRow)
    (targetChargeDate : String) : List ReminderSubscriptionRow :=
  (subs.filter (fun s => s.archived == 0 && s.remind_cancel == 1 &&
    s.next_charge_date == targetChargeDate)).insertionSort subLe

/-- The EXISTS query on reminder_log for one composite key. -/
def hasReminderLog (ledger : List ReminderLogKey) (k : ReminderLogKey) : Bool :=
  ledger.contains k

structure SweepEnv where
  subscriptions : List ReminderSubscriptionRow
  settings : NtfySettings
  deliver : String → Int → Option String
  insertRace : ReminderLogKey → Option String

structure SweepState where
  ledger : List ReminderLogKey
  candidatesChecked : Int
  sentCount : Int
  skippedCount : Int
  failedCount : Int
  warnings : List String

/-- The composite ledger key the sweep checks and inserts for a candidate:
    it uses the next_charge_date column of the candidate row. -/
def candidateKey (c : ReminderSubscriptionRow) (offsetDays : Int) : ReminderLogKey :=
  { subscription_id := c.id, reminder_kind := REMINDER_KIND,
    target_charge_date := c.next_charge_date, offset_days := offsetDays }

/-- The try block of the candidate loop: the outbound POST, then the ledger
    insert; either may throw. -/
def candidateAttempt (env : SweepEnv) (c : ReminderSubscriptionRow)
    (offsetDays : Int) : Except String Unit :=
  match env.deliver c.id offsetDays with
  | some msg => .error msg
  | none =>
    match env.insertRace (candidateKey c offsetDays) with
    | some msg => .error msg
    | none => .ok ()

/-- The warning appended when a candidate attempt throws. -/
def failWarning (c : ReminderSubscriptionRow) (offsetDays : Int)
    (msg : String) : String :=
  "Failed to send reminder for " ++ c.name ++ " (" ++ c.next_charge_date ++
    ", offset " ++ toString offsetDays ++ "): " ++ msg

/-- The body of the candidate loop: count the candidate, skip when the
    ledger already holds the key or no gateway target resolved, otherwise
    attempt delivery; a successful attempt records the ledger row, a thrown
    attempt is caught and counted as failed with a warning. -/
def processCandidate (env : SweepEnv) (config : Option ResolvedNtfySettings)
    (st : SweepState) (c : ReminderSubscriptionRow) (offsetDays : Int) : SweepState :=
  let st1 := { st with candidatesChecked := st.candidatesChecked + 1 }
  if hasReminderLog st1.ledger (candidateKey c offsetDays) then
    { st1 with skippedCount := st1.skippedCount + 1 }
  else
    match config with
    | none => { st1 with skippedCount := st1.skippedCount + 1 }
    | some _ =>
      match candidateAttempt env c offsetDays with
      | .ok _ =>
        { st1 with ledger := st1.ledger ++ [candidateKey c offsetDays],
                   sentCount := st1.sentCount + 1 }
      | .error msg =>
        { st1 with failedCount := st1.failedCount + 1,
                   warnings := st1.warnings ++ [failWarning c offsetDays msg] }

/-- The fixed reminder windows, in sweep order. -/
def reminderWindows : List Int := [1, 2]

/-- One window of the sweep: compute the target date, query the candidates,
    process each in order. -/
def runWindow (env : SweepEnv) (config : Option ResolvedNtfySettings)
    (todayIso : String) (st : SweepState) (offsetDays : Int) : SweepState :=
  let targetChargeDate := addDaysToIsoDate todayIso offsetDays
  (selectSubscriptionsByDate env.subscriptions targetChargeDate).foldl
    (fun s c => processCandidate env config s c offsetDays) st

/-- The report value a sweep returns.  The runAt timestamp and time zone
    name are strings copied from the environment and carry no logic. -/
structure ReminderRunResult where
  windowsChecked : Int
  candidatesChecked : Int
  sentCount : Int
  skippedCount : Int
  failedCount : Int
  warnings : List String
deriving DecidableEq, Repr

/-- runReminderCheckInternal on an already computed local date: snapshot
    and resolve the settings (pushing the resolution warning), then fold
    the windows, and return the aggregate report with the final ledger. -/
def runReminderCheckOnDate (env : SweepEnv) (ledger0 : List ReminderLogKey)
    (todayIso : String) : ReminderRunResult × List ReminderLogKey :=
  let r := resolveNtfySettings env.settings
  let st0 : SweepState :=
    { ledger := ledger0, candidatesChecked := 0, sentCount := 0,
      skippedCount := 0, failedCount := 0,
      warnings := match r.warning with | some w => [w] | none => [] }
  let st := reminderWindows.foldl (runWindow env r.config todayIso) st0
  ({ windowsChecked := reminderWindows.length,
     candidatesChecked := st.candidatesChecked, sentCount := st.sentCount,
     skippedCount := st.skippedCount, failedCount := st.failedCount,
     warnings := st.warnings }, st.ledger)

/-- runReminderCheckInternal: compute today in the reminder time zone from
    the current instant, then sweep.  Totality of this function is the
    model-level statement that a sweep returns a report to its caller
    rather than raising: every throw inside the candidate loop is caught
    there. -/
def runReminderCheckInternal (env : SweepEnv) (ledger0 : List ReminderLogKey)
    (nowMs : Int) (off : Int → Int) : ReminderRunResult × List ReminderLogKey :=
  runReminderCheckOnDate env ledger0 (getTodayIsoInReminderTimeZone nowMs off)


/-! ## Calendar lemmas -/

theorem daysInMonth_le (y m : Int) : daysInMonth y m ≤ 31 := by
  unfold daysInMonth
  split_ifs <;> omega

/-- daysFromCivil evaluated on an era/year-of-era decomposition of the year. -/
theorem daysFromCivil_decomp (era yoe m d : Int)
    (hy1 : 0 ≤ yoe) (hy2 : yoe ≤ 399) :
    daysFromCivil (era * 400 + yoe + (if m ≤ 2 then 1 else 0)) m d =
      era * 146097 + (yoe * 365 + yoe / 4 - yoe / 100 +
        ((153 * ((m + 9) % 12) + 2) / 5 + d - 1)) - 719468 := by
  simp only [daysFromCivil]
  by_cases hc : m ≤ 2
  · simp only [if_pos hc]; omega
  · simp only [if_neg hc]; omega

/-- civilFromDays is a right inverse of daysFromCivil on every day number,
    and always produces a month in 1..12 and a day in 1..31. -/
theorem civilFromDays_spec (z : Int) :
    daysFromCivil (civilFromDays z).year (civilFromDays z).month (civilFromDays z).day = z ∧
    1 ≤ (civilFromDays z).month ∧ (civilFromDays z).month ≤ 12 ∧
    1 ≤ (civilFromDays z).day ∧ (civilFromDays z).day ≤ 31 := by
  simp only [civilFromDays]
  set z2 := z + 719468 with hz2
  set era := z2 / 146097 with hera
  set doe := z2 - era * 146097 with hdoe
  have hdoeb : 0 ≤ doe ∧ doe < 146097 := by omega
  set yoe := (doe - doe / 1460 + doe / 36524 - doe / 146096) / 365 with hyoe
  have hyb : 0 ≤ yoe ∧ yoe ≤ 399 := by omega
  have hkey : 365 * yoe + yoe / 4 - yoe / 100 ≤ doe ∧
      doe - (365 * yoe + yoe / 4 - yoe / 100) ≤ 365 := by
    obtain ⟨hy1, hy2⟩ := hyb
    obtain ⟨hd1, hd2⟩ := hdoeb
    interval_cases yoe <;> omega
  set doy := doe - (365 * yoe + yoe / 4 - yoe / 100) with hdoy
  set mp := (5 * doy + 2) / 153 with hmp
  set dd := doy - (153 * mp + 2) / 5 + 1 with hdd
  set mm := (mp + 2) % 12 + 1 with hmm
  have hmpb : 0 ≤ mp ∧ mp ≤ 11 := by omega
  constructor
  · have hyr : yoe + era * 400 + (if mm ≤ 2 then 1 else 0) =
        era * 400 + yoe + (if mm ≤ 2 then 1 else 0) := by ring
    rw [hyr, daysFromCivil_decomp era yoe mm dd hyb.1 hyb.2]
    have hmp12 : (mm + 9) % 12 = mp := by omega
    rw [hmp12]
    omega
  · omega

/-- daysFromCivil is linear in the day argument. -/
theorem daysFromCivil_day_add (y m d k : Int) :
    daysFromCivil y m (d + k) = daysFromCivil y m d + k := by
  simp only [daysFromCivil]
  omega

/-- The key reconstruction fact for the left inverse: the year-of-era formula
    of civilFromDays recovers the year of era from a day of era built from a
    valid day of year. -/
theorem yoe_reconstruction (yoe doy : Int) (h1 : 0 ≤ yoe) (h2 : yoe ≤ 399)
    (h3 : 0 ≤ doy)
    (h4 : doy ≤ 364 ∨ (doy = 365 ∧ (yoe + 1) % 4 = 0 ∧ ((yoe + 1) % 100 ≠ 0 ∨ yoe = 399))) :
    ((365 * yoe + yoe / 4 - yoe / 100 + doy) -
      (365 * yoe + yoe / 4 - yoe / 100 + doy) / 1460 +
      (365 * yoe + yoe / 4 - yoe / 100 + doy) / 36524 -
      (365 * yoe + yoe / 4 - yoe / 100 + doy) / 146096) / 365 = yoe := by
  interval_cases yoe <;> omega

/-- civilFromDays is a left inverse of daysFromCivil on real dates. -/
theorem civilFromDays_daysFromCivil (y m d : Int) (h : isRealYmd y m d) :
    civilFromDays (daysFromCivil y m d) = ⟨y, m, d⟩ := by
  obtain ⟨hm1, hm2, hd1, hd2⟩ := h
  simp only [daysFromCivil]
  set yAdj := y - (if m ≤ 2 then 1 else 0) with hyAdj
  set era := yAdj / 400 with hera
  set yoe := yAdj - era * 400 with hyoe
  have hyoeb : 0 ≤ yoe ∧ yoe ≤ 399 := by omega
  set mp := (m + 9) % 12 with hmp
  set doy := (153 * mp + 2) / 5 + d - 1 with hdoy
  have hmpb : 0 ≤ mp ∧ mp ≤ 11 := by omega
  have hdoyb : 0 ≤ doy ∧
      (doy ≤ 364 ∨ (doy = 365 ∧ (yoe + 1) % 4 = 0 ∧ ((yoe + 1) % 100 ≠ 0 ∨ yoe = 399))) := by
    -- the day-of-year is in range, with day 365 only on Feb 29 of a leap year
    have hdm : d ≤ daysInMonth y m := hd2
    simp only [daysInMonth, isLeapYear] at hdm
    split_ifs at hdm with h2 hl h46
    · omega
    · push_neg at hl
      omega
    · omega
    · omega
  set doe := yoe * 365 + yoe / 4 - yoe / 100 + doy with hdoe
  have hdoeb : 0 ≤ doe ∧ doe < 146097 := by omega
  have hyoerec : (doe - doe / 1460 + doe / 36524 - doe / 146096) / 365 = yoe := by
    have := yoe_reconstruction yoe doy hyoeb.1 hyoeb.2 hdoyb.1 hdoyb.2
    have hcomm : 365 * yoe + yoe / 4 - yoe / 100 + doy = doe := by omega
    rw [hcomm] at this
    exact this
  simp only [civilFromDays]
  have hz2 : era * 146097 + doe - 719468 + 719468 = era * 146097 + doe := by ring
  rw [hz2]
  have hera2 : (era * 146097 + doe) / 146097 = era := by omega
  rw [hera2]
  have hdoe2 : era * 146097 + doe - era * 146097 = doe := by ring
  rw [hdoe2, hyoerec]
  have hdoy2 : doe - (365 * yoe + yoe / 4 - yoe / 100) = doy := by omega
  rw [hdoy2]
  have hd31 : d ≤ 31 := le_trans hd2 (daysInMonth_le y m)
  have hdbound : (d ≤ 30 ∨ (m ≠ 4 ∧ m ≠ 6 ∧ m ≠ 9 ∧ m ≠ 11)) ∧ (d ≤ 29 ∨ m ≠ 2) := by
    have hdm := hd2
    simp only [daysInMonth, isLeapYear] at hdm
    split_ifs at hdm <;> omega
  have hmprec : (5 * doy + 2) / 153 = mp := by
    obtain ⟨hp1, hp2⟩ := hmpb
    obtain ⟨hb1, hb2⟩ := hdbound
    interval_cases mp <;> omega
  rw [hmprec]
  have hdrec : doy - (153 * mp + 2) / 5 + 1 = d := by omega
  have hmrec : (mp + 2) % 12 + 1 = m := by omega
  rw [hdrec, hmrec]
  have hyrec : yoe + era * 400 + (if m ≤ 2 then 1 else 0) = y := by
    by_cases hc : m ≤ 2 <;> simp [hc] <;> omega
  rw [hyrec]

/-! ## Decimal rendering lemmas -/

theorem natDigitsAux_one (f n : Nat) (hf : 1 ≤ f) (h : n < 10) :
    natDigitsAux f n = [Nat.digitChar n] := by
  match f, hf with
  | f + 1, _ => rw [natDigitsAux, if_pos h]

theorem natDigitsAux_two (f n : Nat) (hf : 2 ≤ f) (h1 : 10 ≤ n) (h2 : n < 100) :
    natDigitsAux f n = [Nat.digitChar (n / 10), Nat.digitChar (n % 10)] := by
  match f, hf with
  | f + 1, _ =>
    rw [natDigitsAux, if_neg (by omega),
      natDigitsAux_one f (n / 10) (by omega) (by omega)]
    rfl

theorem natDigitsAux_three (f n : Nat) (hf : 3 ≤ f) (h1 : 100 ≤ n) (h2 : n < 1000) :
    natDigitsAux f n = [Nat.digitChar (n / 10 / 10), Nat.digitChar (n / 10 % 10),
      Nat.digitChar (n % 10)] := by
  match f, hf with
  | f + 1, _ =>
    rw [natDigitsAux, if_neg (by omega),
      natDigitsAux_two f (n / 10) (by omega) (by omega) (by omega)]
    rfl

theorem natDigits_lt10 (n : Nat) (h : n < 10) :
    natDigits n = [Nat.digitChar n] :=
  natDigitsAux_one (n + 1) n (by omega) h

theorem natDigits_two (n : Nat) (h1 : 10 ≤ n) (h2 : n < 100) :
    natDigits n = [Nat.digitChar (n / 10), Nat.digitChar (n % 10)] :=
  natDigitsAux_two (n + 1) n (by omega) h1 h2

theorem natDigits_three (n : Nat) (h1 : 100 ≤ n) (h2 : n < 1000) :
    natDigits n = [Nat.digitChar (n / 10 / 10), Nat.digitChar (n / 10 % 10),
      Nat.digitChar (n % 10)] :=
  natDigitsAux_three (n + 1) n (by omega) h1 h2

theorem natDigits_four (n : Nat) (h1 : 1000 ≤ n) (h2 : n < 10000) :
    natDigits n = [Nat.digitChar (n / 10 / 10 / 10), Nat.digitChar (n / 10 / 10 % 10),
      Nat.digitChar (n / 10 % 10), Nat.digitChar (n % 10)] := by
  rw [natDigits, natDigitsAux, if_neg (by omega),
    natDigitsAux_three n (n / 10) (by omega) (by omega) (by omega)]
  rfl

/-- A natural number below 10000 padded to four digit characters. -/
theorem padded_four (a : Nat) (h : a ≤ 9999) :
    padStartChars (natDigits a) 4 '0' =
      [Nat.digitChar (a / 1000 % 10), Nat.digitChar (a / 100 % 10),
       Nat.digitChar (a / 10 % 10), Nat.digitChar (a % 10)] := by
  rcases Nat.lt_or_ge a 10 with hr | hr
  · rw [natDigits_lt10 a hr]
    have e1 : a / 1000 % 10 = 0 := by omega
    have e2 : a / 100 % 10 = 0 := by omega
    have e3 : a / 10 % 10 = 0 := by omega
    have e4 : a % 10 = a := by omega
    rw [e1, e2, e3, e4]
    rfl
  rcases Nat.lt_or_ge a 100 with hr2 | hr2
  · rw [natDigits_two a hr hr2]
    have e1 : a / 1000 % 10 = 0 := by omega
    have e2 : a / 100 % 10 = 0 := by omega
    have e3 : a / 10 % 10 = a / 10 := by omega
    rw [e1, e2, e3]
    rfl
  rcases Nat.lt_or_ge a 1000 with hr3 | hr3
  · rw [natDigits_three a hr2 hr3]
    have e1 : a / 1000 % 10 = 0 := by omega
    have e2 : a / 100 % 10 = a / 10 / 10 := by omega
    rw [e1, e2]
    rfl
  · rw [natDigits_four a hr3 (by omega)]
    have e1 : a / 1000 % 10 = a / 10 / 10 / 10 := by omega
    have e2 : a / 100 % 10 = a / 10 / 10 % 10 := by omega
    rw [e1, e2]
    rfl

/-- A natural number below 100 padded to two digit characters. -/
theorem padded_two (a : Nat) (h : a ≤ 99) :
    padStartChars (natDigits a) 2 '0' =
      [Nat.digitChar (a / 10 % 10), Nat.digitChar (a % 10)] := by
  rcases Nat.lt_or_ge a 10 with hr | hr
  · rw [natDigits_lt10 a hr]
    have e1 : a / 10 % 10 = 0 := by omega
    have e2 : a % 10 = a := by omega
    rw [e1, e2]
    rfl
  · rw [natDigits_two a hr (by omega)]
    have e1 : a / 10 % 10 = a / 10 := by omega
    rw [e1]
    rfl

theorem isDigit_digitChar (v : Nat) (h : v < 10) :
    (Nat.digitChar v).isDigit = true := by
  interval_cases v <;> decide

theorem digitVal_digitChar (v : Nat) (h : v < 10) :
    digitVal (Nat.digitChar v) = (v : Int) := by
  interval_cases v <;> decide

/-- Rendering a date with in-range fields and parsing it back returns the
    fields. -/
theorem parseIsoYmd_toIsoDate (y m d : Int)
    (hy1 : 0 ≤ y) (hy2 : y ≤ 9999) (hm1 : 0 ≤ m) (hm2 : m ≤ 99)
    (hd1 : 0 ≤ d) (hd2 : d ≤ 99) :
    parseIsoYmd (toIsoDate ⟨y, m, d⟩) = some (y, m, d) := by
  have hy : y = (y.natAbs : Int) := (Int.natAbs_of_nonneg hy1).symm
  have hm : m = (m.natAbs : Int) := (Int.natAbs_of_nonneg hm1).symm
  have hd : d = (d.natAbs : Int) := (Int.natAbs_of_nonneg hd1).symm
  set a := y.natAbs with ha
  set b := m.natAbs with hb
  set c := d.natAbs with hc
  have hab : a ≤ 9999 := by omega
  have hbb : b ≤ 99 := by omega
  have hcb : c ≤ 99 := by omega
  have hchars : intChars y = natDigits a ∧ intChars m = natDigits b ∧
      intChars d = natDigits c := by
    unfold intChars
    rw [if_neg (by omega), if_neg (by omega), if_neg (by omega)]
    exact ⟨rfl, rfl, rfl⟩
  unfold toIsoDate
  rw [hchars.1, hchars.2.1, hchars.2.2, padded_four a hab, padded_two b hbb,
    padded_two c hcb]
  unfold parseIsoYmd
  simp only [List.cons_append, List.nil_append]
  rw [isDigit_digitChar _ (by omega), isDigit_digitChar _ (by omega),
    isDigit_digitChar _ (by omega), isDigit_digitChar _ (by omega),
    isDigit_digitChar _ (by omega), isDigit_digitChar _ (by omega),
    isDigit_digitChar _ (by omega), isDigit_digitChar _ (by omega)]
  simp only [Bool.true_and, Bool.and_true, beq_self_eq_true]
  rw [digitVal_digitChar _ (by omega), digitVal_digitChar _ (by omega),
    digitVal_digitChar _ (by omega), digitVal_digitChar _ (by omega),
    digitVal_digitChar _ (by omega), digitVal_digitChar _ (by omega),
    digitVal_digitChar _ (by omega), digitVal_digitChar _ (by omega)]
  have ey : 1000 * ((a / 1000 % 10 : Nat) : Int) + 100 * ((a / 100 % 10 : Nat) : Int) +
      10 * ((a / 10 % 10 : Nat) : Int) + ((a % 10 : Nat) : Int) = y := by omega
  have em : 10 * ((b / 10 % 10 : Nat) : Int) + ((b % 10 : Nat) : Int) = m := by omega
  have ed : 10 * ((c / 10 % 10 : Nat) : Int) + ((c % 10 : Nat) : Int) = d := by omega
  rw [ey, em, ed]
  simp

/-! ## Day-number bounds -/

/-- Day-number bounds for rendered-range dates (years 100..9999). -/
theorem daysFromCivil_bounds (y m d : Int)
    (hy1 : 100 ≤ y) (hy2 : y ≤ 9999) (hm1 : 1 ≤ m) (hm2 : m ≤ 12)
    (hd1 : 1 ≤ d) (hd2 : d ≤ 31) :
    -683004 ≤ daysFromCivil y m d ∧ daysFromCivil y m d ≤ 2932896 := by
  interval_cases m <;> simp only [daysFromCivil] <;> omega

/-- Every day number of a date with year at most 99 lies strictly below the
    day numbers of years 100..9999. -/
theorem daysFromCivil_low (y m d : Int)
    (hy : y ≤ 99) (hm1 : 1 ≤ m) (hm2 : m ≤ 12) (hd1 : 1 ≤ d) (hd2 : d ≤ 31) :
    daysFromCivil y m d ≤ -683004 := by
  interval_cases m <;> simp only [daysFromCivil] <;> omega

/-- Every day number of a date with year at least 10000 lies strictly above
    the day numbers of years 100..9999. -/
theorem daysFromCivil_high (y m d : Int)
    (hy : 10000 ≤ y) (hm1 : 1 ≤ m) (hm2 : m ≤ 12) (hd1 : 1 ≤ d) (hd2 : d ≤ 31) :
    2932897 ≤ daysFromCivil y m d := by
  interval_cases m <;> simp only [daysFromCivil] <;> omega

/-- Day numbers in the rendered range have years 100..9999. -/
theorem civilFromDays_year_range (z : Int)
    (h1 : -683003 ≤ z) (h2 : z ≤ 2932896) :
    100 ≤ (civilFromDays z).year ∧ (civilFromDays z).year ≤ 9999 := by
  obtain ⟨hz, hm1, hm2, hd1, hd2⟩ := civilFromDays_spec z
  constructor
  · by_contra hc
    push_neg at hc
    have := daysFromCivil_low (civilFromDays z).year (civilFromDays z).month
      (civilFromDays z).day (by omega) hm1 hm2 hd1 hd2
    omega
  · by_contra hc
    push_neg at hc
    have := daysFromCivil_high (civilFromDays z).year (civilFromDays z).month
      (civilFromDays z).day (by omega) hm1 hm2 hd1 hd2
    omega

/-- natAbs bound from two-sided bounds. -/
theorem natAbs_le_hundred_million (x lo hi : Int)
    (h1 : lo ≤ x) (h2 : x ≤ hi) (h3 : -100000000 ≤ lo) (h4 : hi ≤ 100000000) :
    x.natAbs ≤ 100000000 := by
  omega

/-- MakeDay with a 1..12 month shifted down by one is the day number. -/
theorem jsMakeDay_eq (y m d : Int) (hm1 : 1 ≤ m) (hm2 : m ≤ 12) :
    jsMakeDay y (m - 1) d = daysFromCivil y m d := by
  unfold jsMakeDay
  have h1 : (m - 1) / 12 = 0 := by omega
  have h2 : (m - 1) % 12 = m - 1 := by omega
  rw [h1, h2, add_zero]
  have h3 : m - 1 + 1 = m := by ring
  rw [h3]
  have h4 := daysFromCivil_day_add y m 1 (d - 1)
  have h5 : 1 + (d - 1) = d := by ring
  rw [h5] at h4
  omega

/-! ## Claim C2: addDays round trip -/

/-- C2 counterexample: the round trip fails on real proleptic Gregorian
    dates.  Years 00..99 are remapped through 1900+year by Date.UTC, so
    adding zero days twice to 0099-01-01 returns 1999-01-01; and the
    intermediate date of 9999-12-31 plus one day has a five-character year,
    misses the strict format, and the inner result is returned unchanged. -/
theorem C2_counterexample :
    (isRealYmd 99 1 1 ∧ toIsoDate ⟨99, 1, 1⟩ = "0099-01-01" ∧
      addDaysToIsoDate (addDaysToIsoDate "0099-01-01" 0) (-0) ≠ "0099-01-01") ∧
    (isRealYmd 9999 12 31 ∧ toIsoDate ⟨9999, 12, 31⟩ = "9999-12-31" ∧
      addDaysToIsoDate (addDaysToIsoDate "9999-12-31" 1) (-1) ≠ "9999-12-31") := by
  refine ⟨⟨by decide, by decide, by decide⟩, ⟨by decide, by decide, by decide⟩⟩

/-- C2 (amended): for every real proleptic Gregorian date with year in
    100..9999 and every integer day count for which the intermediate date
    also has year in 100..9999, adding the days and adding their negation
    returns exactly the original ISO string. -/
theorem C2_addDays_roundtrip (y m d n : Int)
    (hreal : isRealYmd y m d) (hy1 : 100 ≤ y) (hy2 : y ≤ 9999)
    (hmid1 : 100 ≤ (civilFromDays (daysFromCivil y m d + n)).year)
    (hmid2 : (civilFromDays (daysFromCivil y m d + n)).year ≤ 9999) :
    addDaysToIsoDate (addDaysToIsoDate (toIsoDate ⟨y, m, d⟩) n) (-n) =
      toIsoDate ⟨y, m, d⟩ := by
  obtain ⟨hm1, hm2, hd1, hd2⟩ := hreal
  have hd31 : d ≤ 31 := le_trans hd2 (daysInMonth_le y m)
  have hp1 : parseIsoYmd (toIsoDate ⟨y, m, d⟩) = some (y, m, d) :=
    parseIsoYmd_toIsoDate y m d (by omega) (by omega) (by omega) (by omega)
      (by omega) (by omega)
  have hadj : jsAdjustYear y = y := by
    unfold jsAdjustYear
    rw [if_neg (by omega)]
  have hmk : jsMakeDay (jsAdjustYear y) (m - 1) (d + n) =
      daysFromCivil y m d + n := by
    rw [hadj, jsMakeDay_eq y m (d + n) hm1 hm2, daysFromCivil_day_add]
  obtain ⟨hz, hm1b, hm2b, hd1b, hd2b⟩ := civilFromDays_spec (daysFromCivil y m d + n)
  have hb2 := daysFromCivil_bounds (civilFromDays (daysFromCivil y m d + n)).year
    (civilFromDays (daysFromCivil y m d + n)).month
    (civilFromDays (daysFromCivil y m d + n)).day hmid1 hmid2 hm1b hm2b hd1b hd2b
  have hclip1 : (daysFromCivil y m d + n).natAbs ≤ 100000000 := by
    rw [hz] at hb2
    exact natAbs_le_hundred_million _ _ _ hb2.1 hb2.2 (by norm_num) (by norm_num)
  have hfirst : addDaysToIsoDate (toIsoDate ⟨y, m, d⟩) n =
      toIsoDate (civilFromDays (daysFromCivil y m d + n)) := by
    simp only [addDaysToIsoDate, hp1, jsDateUTCDay]
    rw [hmk, if_pos hclip1]
  rw [hfirst]
  have hp2 : parseIsoYmd (toIsoDate (civilFromDays (daysFromCivil y m d + n))) =
      some ((civilFromDays (daysFromCivil y m d + n)).year,
        (civilFromDays (daysFromCivil y m d + n)).month,
        (civilFromDays (daysFromCivil y m d + n)).day) :=
    parseIsoYmd_toIsoDate _ _ _ (le_trans (by norm_num) hmid1) hmid2
      (le_trans (by norm_num) hm1b) (le_trans hm2b (by norm_num))
      (le_trans (by norm_num) hd1b) (le_trans hd2b (by norm_num))
  have hadj2 : jsAdjustYear (civilFromDays (daysFromCivil y m d + n)).year =
      (civilFromDays (daysFromCivil y m d + n)).year := by
    generalize hY : (civilFromDays (daysFromCivil y m d + n)).year = Y at hmid1 hmid2
    unfold jsAdjustYear
    rw [if_neg (by omega)]
  have hmk2 : jsMakeDay (jsAdjustYear (civilFromDays (daysFromCivil y m d + n)).year)
      ((civilFromDays (daysFromCivil y m d + n)).month - 1)
      ((civilFromDays (daysFromCivil y m d + n)).day + -n) = daysFromCivil y m d := by
    rw [hadj2, jsMakeDay_eq _ _ _ hm1b hm2b, daysFromCivil_day_add, hz]
    ring
  have hb1 := daysFromCivil_bounds y m d hy1 hy2 hm1 hm2 hd1 hd31
  have hclip2 : (daysFromCivil y m d).natAbs ≤ 100000000 :=
    natAbs_le_hundred_million _ _ _ hb1.1 hb1.2 (by norm_num) (by norm_num)
  have hsecond : addDaysToIsoDate
      (toIsoDate (civilFromDays (daysFromCivil y m d + n))) (-n) =
      toIsoDate (civilFromDays (daysFromCivil y m d)) := by
    simp only [addDaysToIsoDate, hp2, jsDateUTCDay]
    rw [hmk2, if_pos hclip2]
  rw [hsecond, civilFromDays_daysFromCivil y m d ⟨hm1, hm2, hd1, hd2⟩]

/-- Witness for C2 (amended) at 2026-01-30 with five days. -/
theorem C2_addDays_roundtrip_witness :
    isRealYmd 2026 1 30 ∧
    100 ≤ (civilFromDays (daysFromCivil 2026 1 30 + 5)).year ∧
    (civilFromDays (daysFromCivil 2026 1 30 + 5)).year ≤ 9999 ∧
    addDaysToIsoDate (addDaysToIsoDate (toIsoDate ⟨2026, 1, 30⟩) 5) (-5) =
      toIsoDate ⟨2026, 1, 30⟩ :=
  ⟨by decide, by decide, by decide,
    C2_addDays_roundtrip 2026 1 30 5 (by decide) (by decide) (by decide)
      (by decide) (by decide)⟩

/-! ## Claim C8: ISO date validation -/

/-- C8 counterexample: 0000-02-29 is a real proleptic Gregorian date (year 0
    is divisible by 400), but isIsoDateString rejects it because the Date
    constructor reads year 0 as 1900, which is not a leap year. -/
theorem C8_counterexample :
    isRealYmd 0 2 29 ∧ parseIsoYmd "0000-02-29" = some (0, 2, 29) ∧
    isIsoDateString "0000-02-29" = false := by
  refine ⟨by decide, by decide, by decide⟩

/-- C8 (amended): for every string whose strict-format fields have a year of
    at least 100, validation succeeds exactly on real proleptic Gregorian
    dates.  (For year fields 00..99 the month length is taken from year
    1900+YY, which rejects the real date 0000-02-29.) -/
theorem C8_isIsoDateString_valid (s : String) (y m d : Int)
    (hparse : parseIsoYmd s = some (y, m, d)) (hy : 100 ≤ y) :
    isIsoDateString s = true ↔ isRealYmd y m d := by
  simp only [isIsoDateString, hparse]
  have hadj : jsAdjustYear y = y := by
    unfold jsAdjustYear
    rw [if_neg (by omega)]
  rw [hadj]
  unfold isRealYmd
  by_cases hm : m < 1 ∨ m > 12
  · rw [if_pos hm]
    constructor
    · intro h
      exact absurd h (by simp)
    · intro h
      omega
  · rw [if_neg hm]
    rw [decide_eq_true_iff]
    push_neg at hm
    constructor
    · intro h
      exact ⟨by omega, by omega, h.1, h.2⟩
    · intro h
      exact ⟨h.2.2.1, h.2.2.2⟩

/-- Witness for C8 (amended) at 2026-02-30, a rejected unreal date. -/
theorem C8_isIsoDateString_valid_witness :
    parseIsoYmd "2026-02-30" = some (2026, 2, 30) ∧
    (isIsoDateString "2026-02-30" = true ↔ isRealYmd 2026 2 30) :=
  ⟨by decide,
    C8_isIsoDateString_valid "2026-02-30" 2026 2 30 (by decide) (by decide)⟩

/-! ## Sweep lemmas -/

/-- A candidate with a gateway target resolved and no prior ledger row is
    processed as exactly one of: skipped never (impossible here), sent with
    its key appended, or failed with a warning appended; a candidate
    without those is skipped.  Shape lemma covering every branch. -/
theorem processCandidate_shape (env : SweepEnv) (config : Option ResolvedNtfySettings)
    (st : SweepState) (c : ReminderSubscriptionRow) (o : Int) :
    processCandidate env config st c o =
      { st with candidatesChecked := st.candidatesChecked + 1,
                skippedCount := st.skippedCount + 1 } ∨
    processCandidate env config st c o =
      { st with candidatesChecked := st.candidatesChecked + 1,
                ledger := st.ledger ++ [candidateKey c o],
                sentCount := st.sentCount + 1 } ∨
    (∃ w, processCandidate env config st c o =
      { st with candidatesChecked := st.candidatesChecked + 1,
                failedCount := st.failedCount + 1,
                warnings := st.warnings ++ [w] }) := by
  unfold processCandidate
  by_cases hlog : hasReminderLog st.ledger (candidateKey c o)
  · left
    simp only [hlog, if_true]
  · simp only [hlog, if_false, Bool.false_eq_true]
    match config with
    | none => left; rfl
    | some cfg =>
      match hA : candidateAttempt env c o with
      | .ok u => right; left; rfl
      | .error msg => right; right; exact ⟨failWarning c o msg, rfl⟩

/-- Skipping branch: a candidate whose key is already in the ledger. -/
theorem processCandidate_logged (env : SweepEnv) (config : Option ResolvedNtfySettings)
    (st : SweepState) (c : ReminderSubscriptionRow) (o : Int)
    (h : candidateKey c o ∈ st.ledger) :
    processCandidate env config st c o =
      { st with candidatesChecked := st.candidatesChecked + 1,
                skippedCount := st.skippedCount + 1 } := by
  have hb : hasReminderLog st.ledger (candidateKey c o) = true := by
    unfold hasReminderLog
    exact List.elem_iff.mpr h
  unfold processCandidate
  simp only [hb, if_true]

/-- Skipping branch: no gateway target resolved. -/
theorem processCandidate_config_none (env : SweepEnv) (st : SweepState)
    (c : ReminderSubscriptionRow) (o : Int) :
    processCandidate env none st c o =
      { st with candidatesChecked := st.candidatesChecked + 1,
                skippedCount := st.skippedCount + 1 } := by
  unfold processCandidate
  by_cases hlog : hasReminderLog st.ledger (candidateKey c o) <;>
    simp only [hlog, if_true, if_false, Bool.false_eq_true]

/-- Sending branch: target resolved, no prior row, delivery and insert both
    succeed. -/
theorem processCandidate_sent (env : SweepEnv) (cfg : ResolvedNtfySettings)
    (st : SweepState) (c : ReminderSubscriptionRow) (o : Int)
    (hlog : hasReminderLog st.ledger (candidateKey c o) = false)
    (hdeliver : env.deliver c.id o = none)
    (hrace : env.insertRace (candidateKey c o) = none) :
    processCandidate env (some cfg) st c o =
      { st with candidatesChecked := st.candidatesChecked + 1,
                ledger := st.ledger ++ [candidateKey c o],
                sentCount := st.sentCount + 1 } := by
  have hA : candidateAttempt env c o = .ok () := by
    unfold candidateAttempt
    rw [hdeliver, hrace]
  unfold processCandidate
  simp only [hlog, if_false, Bool.false_eq_true, hA]

/-! ## Claim C1: duplicate-key ledger insert -/

/-- C1 counterexample: one eligible candidate, valid gateway settings, a
    successful POST, and a ledger insert that hits the uniqueness
    constraint (a concurrent writer won the race).  The sweep counts the
    candidate as failed, not skipped. -/
theorem C1_counterexample :
    (runReminderCheckInternal
      ⟨[⟨"sub1", "Netflix", "EUR", 1, "2026-03-02", 1, 0, none,
         "2026-01-01T00:00:00Z"⟩],
       ⟨"https://ntfy.example.com", "alerts", ""⟩,
       fun _ _ => none,
       fun _ => some "UNIQUE constraint failed: reminder_log.subscription_id"⟩
      [] (20513 * 86400000) (fun _ => 0)).1.skippedCount = 0 ∧
    (runReminderCheckInternal
      ⟨[⟨"sub1", "Netflix", "EUR", 1, "2026-03-02", 1, 0, none,
         "2026-01-01T00:00:00Z"⟩],
       ⟨"https://ntfy.example.com", "alerts", ""⟩,
       fun _ _ => none,
       fun _ => some "UNIQUE constraint failed: reminder_log.subscription_id"⟩
      [] (20513 * 86400000) (fun _ => 0)).1.failedCount = 1 ∧
    (runReminderCheckInternal
      ⟨[⟨"sub1", "Netflix", "EUR", 1, "2026-03-02", 1, 0, none,
         "2026-01-01T00:00:00Z"⟩],
       ⟨"https://ntfy.example.com", "alerts", ""⟩,
       fun _ _ => none,
       fun _ => some "UNIQUE constraint failed: reminder_log.subscription_id"⟩
      [] (20513 * 86400000) (fun _ => 0)).1.candidatesChecked = 1 := by
  refine ⟨by decide, by decide, by decide⟩

/-- C1 (amended): when the ledger insert of a candidate hits the uniqueness
    constraint after a successful delivery, the candidate loop catches the
    thrown duplicate-key error in its per-candidate try block: the candidate
    is counted as failed (never as skipped) with a warning naming it, the
    ledger is unchanged, and the sweep continues and returns normally - the
    error does not reach the sweep caller (the sweep is a total function
    into a report). -/
theorem C1_duplicate_key_failed (env : SweepEnv) (cfg : ResolvedNtfySettings)
    (st : SweepState) (c : ReminderSubscriptionRow) (o : Int) (msg : String)
    (hlog : hasReminderLog st.ledger (candidateKey c o) = false)
    (hdeliver : env.deliver c.id o = none)
    (hrace : env.insertRace (candidateKey c o) = some msg) :
    processCandidate env (some cfg) st c o =
      { st with candidatesChecked := st.candidatesChecked + 1,
                failedCount := st.failedCount + 1,
                warnings := st.warnings ++ [failWarning c o msg] } := by
  have hA : candidateAttempt env c o = .error msg := by
    unfold candidateAttempt
    rw [hdeliver, hrace]
  unfold processCandidate
  simp only [hlog, if_false, Bool.false_eq_true, hA]

/-- Witness for C1 (amended) on a concrete racing candidate. -/
theorem C1_duplicate_key_failed_witness :
    processCandidate
      ⟨[], ⟨"", "", ""⟩, fun _ _ => none, fun _ => some "UNIQUE constraint failed"⟩
      (some ⟨"https://ntfy.example.com/alerts", ""⟩)
      ⟨[], 0, 0, 0, 0, []⟩
      ⟨"sub1", "Netflix", "EUR", 1, "2026-03-02", 1, 0, none, "2026-01-01"⟩ 1 =
      { (⟨[], 0, 0, 0, 0, []⟩ : SweepState) with
        candidatesChecked := 0 + 1, failedCount := 0 + 1,
        warnings := [] ++ [failWarning
          ⟨"sub1", "Netflix", "EUR", 1, "2026-03-02", 1, 0, none, "2026-01-01"⟩ 1
          "UNIQUE constraint failed"] } :=
  C1_duplicate_key_failed
    ⟨[], ⟨"", "", ""⟩, fun _ _ => none, fun _ => some "UNIQUE constraint failed"⟩
    ⟨"https://ntfy.example.com/alerts", ""⟩
    ⟨[], 0, 0, 0, 0, []⟩
    ⟨"sub1", "Netflix", "EUR", 1, "2026-03-02", 1, 0, none, "2026-01-01"⟩ 1
    "UNIQUE constraint failed" (by decide) (by rfl) (by rfl)

/-- Folding the candidate loop with no gateway target: every candidate is
    counted and skipped; nothing else changes. -/
theorem foldl_processCandidate_config_none (env : SweepEnv) (o : Int)
    (cs : List ReminderSubscriptionRow) (st : SweepState) :
    cs.foldl (fun s c => processCandidate env none s c o) st =
      { st with candidatesChecked := st.candidatesChecked + cs.length,
                skippedCount := st.skippedCount + cs.length } := by
  induction cs generalizing st with
  | nil =>
    cases st
    simp
  | cons c cs ih =>
    rw [List.foldl_cons, processCandidate_config_none, ih]
    cases st
    simp only [SweepState.mk.injEq, List.length_cons]
    refine ⟨by trivial, by omega, by trivial, by omega, by trivial, by trivial⟩

/-- One window with no gateway target skips all its candidates. -/
theorem runWindow_config_none (env : SweepEnv) (todayIso : String)
    (st : SweepState) (o : Int) :
    runWindow env none todayIso st o =
      { st with
        candidatesChecked := st.candidatesChecked +
          (selectSubscriptionsByDate env.subscriptions
            (addDaysToIsoDate todayIso o)).length,
        skippedCount := st.skippedCount +
          (selectSubscriptionsByDate env.subscriptions
            (addDaysToIsoDate todayIso o)).length } := by
  unfold runWindow
  exact foldl_processCandidate_config_none env o _ st

/-! ## Claim C3: failed gateway resolution -/

/-- C3: when gateway-target resolution fails, the sweep reports zero sends
    and zero failures, counts every candidate of both windows as skipped,
    appends exactly the one configuration warning, leaves the ledger
    unchanged, and returns normally. -/
theorem C3_resolution_failure (env : SweepEnv)
    (ledger0 : List ReminderLogKey) (nowMs : Int) (off : Int → Int) (w : String)
    (hw : resolveNtfySettings env.settings = ⟨none, some w⟩) :
    (runReminderCheckInternal env ledger0 nowMs off).1.sentCount = 0 ∧
    (runReminderCheckInternal env ledger0 nowMs off).1.failedCount = 0 ∧
    (runReminderCheckInternal env ledger0 nowMs off).1.skippedCount =
      (runReminderCheckInternal env ledger0 nowMs off).1.candidatesChecked ∧
    (runReminderCheckInternal env ledger0 nowMs off).1.warnings = [w] ∧
    (runReminderCheckInternal env ledger0 nowMs off).2 = ledger0 := by
  unfold runReminderCheckInternal runReminderCheckOnDate
  rw [hw]
  simp only [reminderWindows, List.foldl_cons, List.foldl_nil,
    runWindow_config_none]
  exact ⟨trivial, trivial, trivial, trivial, trivial⟩

/-- Witness for C3: empty gateway URL, one eligible candidate, all skipped. -/
theorem C3_resolution_failure_witness :
    resolveNtfySettings
      (SweepEnv.settings ⟨[⟨"sub1", "Netflix", "EUR", 1, "2026-03-02", 1, 0, none,
          "2026-01-01T00:00:00Z"⟩], ⟨"", "alerts", ""⟩,
        fun _ _ => none, fun _ => none⟩) =
      ⟨none, some "ntfy configuration is missing: ntfy_url is required. Reminder send skipped."⟩ ∧
    (runReminderCheckInternal
      ⟨[⟨"sub1", "Netflix", "EUR", 1, "2026-03-02", 1, 0, none,
          "2026-01-01T00:00:00Z"⟩], ⟨"", "alerts", ""⟩,
        fun _ _ => none, fun _ => none⟩
      [] (20513 * 86400000) (fun _ => 0)).1.sentCount = 0 ∧
    (runReminderCheckInternal
      ⟨[⟨"sub1", "Netflix", "EUR", 1, "2026-03-02", 1, 0, none,
          "2026-01-01T00:00:00Z"⟩], ⟨"", "alerts", ""⟩,
        fun _ _ => none, fun _ => none⟩
      [] (20513 * 86400000) (fun _ => 0)).1.failedCount = 0 ∧
    (runReminderCheckInternal
      ⟨[⟨"sub1", "Netflix", "EUR", 1, "2026-03-02", 1, 0, none,
          "2026-01-01T00:00:00Z"⟩], ⟨"", "alerts", ""⟩,
        fun _ _ => none, fun _ => none⟩
      [] (20513 * 86400000) (fun _ => 0)).1.skippedCount =
    (runReminderCheckInternal
      ⟨[⟨"sub1", "Netflix", "EUR", 1, "2026-03-02", 1, 0, none,
          "2026-01-01T00:00:00Z"⟩], ⟨"", "alerts", ""⟩,
        fun _ _ => none, fun _ => none⟩
      [] (20513 * 86400000) (fun _ => 0)).1.candidatesChecked := by
  have h := C3_resolution_failure
    ⟨[⟨"sub1", "Netflix", "EUR", 1, "2026-03-02", 1, 0, none,
        "2026-01-01T00:00:00Z"⟩], ⟨"", "alerts", ""⟩,
      fun _ _ => none, fun _ => none⟩
    [] (20513 * 86400000) (fun _ => 0)
    "ntfy configuration is missing: ntfy_url is required. Reminder send skipped."
    (by decide)
  exact ⟨by decide, h.1, h.2.1, h.2.2.1⟩

/-! ## Claim C9: counter invariants -/

/-- Folding the candidate loop preserves the counter invariant. -/
theorem foldl_processCandidate_counters (env : SweepEnv)
    (config : Option ResolvedNtfySettings) (o : Int)
    (cs : List ReminderSubscriptionRow) (st : SweepState)
    (h : st.candidatesChecked = st.sentCount + st.skippedCount + st.failedCount ∧
      0 ≤ st.sentCount ∧ 0 ≤ st.skippedCount ∧ 0 ≤ st.failedCount) :
    ((cs.foldl (fun s c => processCandidate env config s c o) st).candidatesChecked =
      (cs.foldl (fun s c => processCandidate env config s c o) st).sentCount +
      (cs.foldl (fun s c => processCandidate env config s c o) st).skippedCount +
      (cs.foldl (fun s c => processCandidate env config s c o) st).failedCount) ∧
    0 ≤ (cs.foldl (fun s c => processCandidate env config s c o) st).sentCount ∧
    0 ≤ (cs.foldl (fun s c => processCandidate env config s c o) st).skippedCount ∧
    0 ≤ (cs.foldl (fun s c => processCandidate env config s c o) st).failedCount := by
  induction cs generalizing st with
  | nil => exact h
  | cons c cs ih =>
    rw [List.foldl_cons]
    refine ih (processCandidate env config st c o) ?_
    rcases processCandidate_shape env config st c o with hs | hs | ⟨w, hs⟩ <;>
      (rw [hs]; cases st; simp only [] at h ⊢; omega)

/-- One window preserves the counter invariant. -/
theorem runWindow_counters (env : SweepEnv)
    (config : Option ResolvedNtfySettings) (todayIso : String)
    (st : SweepState) (o : Int)
    (h : st.candidatesChecked = st.sentCount + st.skippedCount + st.failedCount ∧
      0 ≤ st.sentCount ∧ 0 ≤ st.skippedCount ∧ 0 ≤ st.failedCount) :
    ((runWindow env config todayIso st o).candidatesChecked =
      (runWindow env config todayIso st o).sentCount +
      (runWindow env config todayIso st o).skippedCount +
      (runWindow env config todayIso st o).failedCount) ∧
    0 ≤ (runWindow env config todayIso st o).sentCount ∧
    0 ≤ (runWindow env config todayIso st o).skippedCount ∧
    0 ≤ (runWindow env config todayIso st o).failedCount := by
  unfold runWindow
  exact foldl_processCandidate_counters env config o _ st h

/-- C9: every sweep report satisfies
    candidatesChecked = sentCount + skippedCount + failedCount, checks
    exactly the two fixed windows, and has non-negative counters. -/
theorem C9_counter_invariant (env : SweepEnv) (ledger0 : List ReminderLogKey)
    (nowMs : Int) (off : Int → Int) :
    (runReminderCheckInternal env ledger0 nowMs off).1.candidatesChecked =
      (runReminderCheckInternal env ledger0 nowMs off).1.sentCount +
      (runReminderCheckInternal env ledger0 nowMs off).1.skippedCount +
      (runReminderCheckInternal env ledger0 nowMs off).1.failedCount ∧
    (runReminderCheckInternal env ledger0 nowMs off).1.windowsChecked = 2 ∧
    0 ≤ (runReminderCheckInternal env ledger0 nowMs off).1.candidatesChecked ∧
    0 ≤ (runReminderCheckInternal env ledger0 nowMs off).1.sentCount ∧
    0 ≤ (runReminderCheckInternal env ledger0 nowMs off).1.skippedCount ∧
    0 ≤ (runReminderCheckInternal env ledger0 nowMs off).1.failedCount := by
  unfold runReminderCheckInternal runReminderCheckOnDate
  simp only [reminderWindows, List.foldl_cons, List.foldl_nil]
  have h0 : ((⟨ledger0, 0, 0, 0, 0,
      match (resolveNtfySettings env.settings).warning with
      | some w => [w] | none => []⟩ : SweepState)).candidatesChecked =
      (0:Int) + 0 + 0 ∧ (0:Int) ≤ 0 ∧ (0:Int) ≤ 0 ∧ (0:Int) ≤ 0 := by
    exact ⟨rfl, le_refl 0, le_refl 0, le_refl 0⟩
  have h1 := runWindow_counters env (resolveNtfySettings env.settings).config
    (getTodayIsoInReminderTimeZone nowMs off)
    ⟨ledger0, 0, 0, 0, 0,
      match (resolveNtfySettings env.settings).warning with
      | some w => [w] | none => []⟩ 1 ⟨h0.1, h0.2.1, h0.2.2.1, h0.2.2.2⟩
  have h2 := runWindow_counters env (resolveNtfySettings env.settings).config
    (getTodayIsoInReminderTimeZone nowMs off)
    (runWindow env (resolveNtfySettings env.settings).config
      (getTodayIsoInReminderTimeZone nowMs off)
      ⟨ledger0, 0, 0, 0, 0,
        match (resolveNtfySettings env.settings).warning with
        | some w => [w] | none => []⟩ 1) 2 h1
  exact ⟨h2.1, rfl, by omega, h2.2.1, h2.2.2.1, h2.2.2.2⟩

/-! ## Claim C4: idempotence of consecutive sweeps -/

/-- The ledger only grows during candidate processing. -/
theorem processCandidate_ledger_mono (env : SweepEnv)
    (config : Option ResolvedNtfySettings) (st : SweepState)
    (c : ReminderSubscriptionRow) (o : Int) (x : ReminderLogKey)
    (hx : x ∈ st.ledger) : x ∈ (processCandidate env config st c o).ledger := by
  rcases processCandidate_shape env config st c o with hs | hs | ⟨w, hs⟩ <;>
    rw [hs] <;> first
    | exact hx
    | exact List.mem_append_left _ hx

/-- The ledger only grows across a candidate fold. -/
theorem foldl_ledger_mono (env : SweepEnv)
    (config : Option ResolvedNtfySettings) (o : Int)
    (cs : List ReminderSubscriptionRow) (st : SweepState) (x : ReminderLogKey)
    (hx : x ∈ st.ledger) :
    x ∈ ((cs.foldl (fun s c => processCandidate env config s c o) st).ledger) := by
  induction cs generalizing st with
  | nil => exact hx
  | cons c cs ih =>
    rw [List.foldl_cons]
    exact ih _ (processCandidate_ledger_mono env config st c o x hx)

/-- After a candidate fold in which every delivery and insert succeeds,
    every processed candidate key is in the ledger. -/
theorem foldl_covered (env : SweepEnv) (cfg : ResolvedNtfySettings) (o : Int)
    (hdeliver : ∀ i j, env.deliver i j = none)
    (hrace : ∀ k, env.insertRace k = none)
    (cs : List ReminderSubscriptionRow) (st : SweepState) :
    ∀ c ∈ cs, candidateKey c o ∈
      ((cs.foldl (fun s c => processCandidate env (some cfg) s c o) st).ledger) := by
  induction cs generalizing st with
  | nil => intro c hc; exact absurd hc (List.not_mem_nil c)
  | cons c cs ih =>
    intro c2 hc2
    rw [List.foldl_cons]
    rcases List.mem_cons.mp hc2 with rfl | hc2
    · -- the head candidate is ledgered by its own step (or it already was)
      by_cases hlog : hasReminderLog st.ledger (candidateKey c2 o)
      · have hmem : candidateKey c2 o ∈ st.ledger := by
          unfold hasReminderLog at hlog
          exact List.elem_iff.mp hlog
        exact foldl_ledger_mono env (some cfg) o cs _ _
          (processCandidate_ledger_mono env (some cfg) st c2 o _ hmem)
      · have hstep := processCandidate_sent env cfg st c2 o
          (by simpa using hlog) (hdeliver c2.id o) (hrace (candidateKey c2 o))
        refine foldl_ledger_mono env (some cfg) o cs _ _ ?_
        rw [hstep]
        exact List.mem_append_right _ (List.mem_singleton.mpr rfl)
    · exact ih _ c2 hc2

/-- A candidate fold over already-ledgered candidates skips every candidate
    and leaves the ledger, counts and warnings otherwise unchanged. -/
theorem foldl_all_logged (env : SweepEnv)
    (config : Option ResolvedNtfySettings) (o : Int)
    (cs : List ReminderSubscriptionRow) (st : SweepState)
    (h : ∀ c ∈ cs, candidateKey c o ∈ st.ledger) :
    cs.foldl (fun s c => processCandidate env config s c o) st =
      { st with candidatesChecked := st.candidatesChecked + cs.length,
                skippedCount := st.skippedCount + cs.length } := by
  induction cs generalizing st with
  | nil =>
    cases st
    simp
  | cons c cs ih =>
    rw [List.foldl_cons,
      processCandidate_logged env config st c o (h c (List.mem_cons_self c cs)),
      ih]
    · cases st
      simp only [SweepState.mk.injEq, List.length_cons]
      refine ⟨by trivial, by omega, by trivial, by omega, by trivial, by trivial⟩
    · intro c2 hc2
      exact h c2 (List.mem_cons_of_mem c hc2)

/-- C4: running the sweep again for the same local date, with the store
    unchanged, the gateway target resolving, and every first-run delivery
    and ledger insert succeeding, produces zero sends and zero failures on
    the second run: every candidate key of the second run is already in the
    first-run ledger, every candidate is counted as skipped, and the ledger
    does not change. -/
theorem C4_second_sweep_idempotent (env : SweepEnv)
    (ledger0 : List ReminderLogKey) (now1 now2 : Int) (off : Int → Int)
    (cfg : ResolvedNtfySettings)
    (htoday : getTodayIsoInReminderTimeZone now1 off =
      getTodayIsoInReminderTimeZone now2 off)
    (hcfg : (resolveNtfySettings env.settings).config = some cfg)
    (hdeliver : ∀ i j, env.deliver i j = none)
    (hrace : ∀ k, env.insertRace k = none) :
    (∀ o ∈ reminderWindows, ∀ c ∈ selectSubscriptionsByDate env.subscriptions
        (addDaysToIsoDate (getTodayIsoInReminderTimeZone now2 off) o),
      candidateKey c o ∈ (runReminderCheckInternal env ledger0 now1 off).2) ∧
    (runReminderCheckInternal env
      (runReminderCheckInternal env ledger0 now1 off).2 now2 off).1.sentCount = 0 ∧
    (runReminderCheckInternal env
      (runReminderCheckInternal env ledger0 now1 off).2 now2 off).1.failedCount = 0 ∧
    (runReminderCheckInternal env
      (runReminderCheckInternal env ledger0 now1 off).2 now2 off).1.skippedCount =
    (runReminderCheckInternal env
      (runReminderCheckInternal env ledger0 now1 off).2 now2 off).1.candidatesChecked ∧
    (runReminderCheckInternal env
      (runReminderCheckInternal env ledger0 now1 off).2 now2 off).2 =
      (runReminderCheckInternal env ledger0 now1 off).2 := by
  have hcover : ∀ o ∈ reminderWindows,
      ∀ c ∈ selectSubscriptionsByDate env.subscriptions
        (addDaysToIsoDate (getTodayIsoInReminderTimeZone now1 off) o),
      candidateKey c o ∈ (runReminderCheckInternal env ledger0 now1 off).2 := by
    simp only [runReminderCheckInternal, runReminderCheckOnDate]
    rw [hcfg]
    simp only [reminderWindows, List.mem_cons, List.not_mem_nil, or_false,
      List.foldl_cons, List.foldl_nil]
    intro o ho c hc
    rcases ho with rfl | rfl
    · -- window 1: covered during window 1, then the ledger only grows
      unfold runWindow
      exact foldl_ledger_mono env (some cfg) 2 _ _ _
        (foldl_covered env cfg 1 hdeliver hrace _ _ c hc)
    · -- window 2: covered during window 2
      unfold runWindow
      exact foldl_covered env cfg 2 hdeliver hrace _ _ c hc
  rw [htoday] at hcover
  refine ⟨hcover, ?_⟩
  -- the second run processes the same candidates, all of them ledgered
  generalize hL : (runReminderCheckInternal env ledger0 now1 off).2 = L1 at hcover
  simp only [runReminderCheckInternal, runReminderCheckOnDate, reminderWindows,
    List.foldl_cons, List.foldl_nil]
  unfold runWindow
  rw [foldl_all_logged env (resolveNtfySettings env.settings).config 1 _ _
    (hcover 1 (by simp [reminderWindows]))]
  rw [foldl_all_logged env (resolveNtfySettings env.settings).config 2 _ _
    (by
      intro c hc
      exact hcover 2 (by simp [reminderWindows]) c hc)]
  refine ⟨?_, ?_, ?_, ?_⟩ <;> simp

/-- Witness for C4 on a concrete store with one eligible candidate. -/
theorem C4_second_sweep_idempotent_witness :
    (∀ o ∈ reminderWindows, ∀ c ∈ selectSubscriptionsByDate
        (SweepEnv.subscriptions ⟨[⟨"sub1", "Netflix", "EUR", 1, "2026-03-02", 1, 0, none, "2026-01-01T00:00:00Z"⟩], ⟨"https://ntfy.example.com", "alerts", ""⟩, fun _ _ => none, fun _ => none⟩)
        (addDaysToIsoDate (getTodayIsoInReminderTimeZone (20513 * 86400000) (fun _ => 0)) o),
      candidateKey c o ∈ (runReminderCheckInternal ⟨[⟨"sub1", "Netflix", "EUR", 1, "2026-03-02", 1, 0, none, "2026-01-01T00:00:00Z"⟩], ⟨"https://ntfy.example.com", "alerts", ""⟩, fun _ _ => none, fun _ => none⟩ [] (20513 * 86400000) (fun _ => 0)).2) ∧
    (runReminderCheckInternal ⟨[⟨"sub1", "Netflix", "EUR", 1, "2026-03-02", 1, 0, none, "2026-01-01T00:00:00Z"⟩], ⟨"https://ntfy.example.com", "alerts", ""⟩, fun _ _ => none, fun _ => none⟩ (runReminderCheckInternal ⟨[⟨"sub1", "Netflix", "EUR", 1, "2026-03-02", 1, 0, none, "2026-01-01T00:00:00Z"⟩], ⟨"https://ntfy.example.com", "alerts", ""⟩, fun _ _ => none, fun _ => none⟩ [] (20513 * 86400000) (fun _ => 0)).2 (20513 * 86400000) (fun _ => 0)).1.sentCount = 0 ∧
    (runReminderCheckInternal ⟨[⟨"sub1", "Netflix", "EUR", 1, "2026-03-02", 1, 0, none, "2026-01-01T00:00:00Z"⟩], ⟨"https://ntfy.example.com", "alerts", ""⟩, fun _ _ => none, fun _ => none⟩ (runReminderCheckInternal ⟨[⟨"sub1", "Netflix", "EUR", 1, "2026-03-02", 1, 0, none, "2026-01-01T00:00:00Z"⟩], ⟨"https://ntfy.example.com", "alerts", ""⟩, fun _ _ => none, fun _ => none⟩ [] (20513 * 86400000) (fun _ => 0)).2 (20513 * 86400000) (fun _ => 0)).1.failedCount = 0 ∧
    (runReminderCheckInternal ⟨[⟨"sub1", "Netflix", "EUR", 1, "2026-03-02", 1, 0, none, "2026-01-01T00:00:00Z"⟩], ⟨"https://ntfy.example.com", "alerts", ""⟩, fun _ _ => none, fun _ => none⟩ (runReminderCheckInternal ⟨[⟨"sub1", "Netflix", "EUR", 1, "2026-03-02", 1, 0, none, "2026-01-01T00:00:00Z"⟩], ⟨"https://ntfy.example.com", "alerts", ""⟩, fun _ _ => none, fun _ => none⟩ [] (20513 * 86400000) (fun _ => 0)).2 (20513 * 86400000) (fun _ => 0)).1.skippedCount = (runReminderCheckInternal ⟨[⟨"sub1", "Netflix", "EUR", 1, "2026-03-02", 1, 0, none, "2026-01-01T00:00:00Z"⟩], ⟨"https://ntfy.example.com", "alerts", ""⟩, fun _ _ => none, fun _ => none⟩ (runReminderCheckInternal ⟨[⟨"sub1", "Netflix", "EUR", 1, "2026-03-02", 1, 0, none, "2026-01-01T00:00:00Z"⟩], ⟨"https://ntfy.example.com", "alerts", ""⟩, fun _ _ => none, fun _ => none⟩ [] (20513 * 86400000) (fun _ => 0)).2 (20513 * 86400000) (fun _ => 0)).1.candidatesChecked ∧
    (runReminderCheckInternal ⟨[⟨"sub1", "Netflix", "EUR", 1, "2026-03-02", 1, 0, none, "2026-01-01T00:00:00Z"⟩], ⟨"https://ntfy.example.com", "alerts", ""⟩, fun _ _ => none, fun _ => none⟩ (runReminderCheckInternal ⟨[⟨"sub1", "Netflix", "EUR", 1, "2026-03-02", 1, 0, none, "2026-01-01T00:00:00Z"⟩], ⟨"https://ntfy.example.com", "alerts", ""⟩, fun _ _ => none, fun _ => none⟩ [] (20513 * 86400000) (fun _ => 0)).2 (20513 * 86400000) (fun _ => 0)).2 = (runReminderCheckInternal ⟨[⟨"sub1", "Netflix", "EUR", 1, "2026-03-02", 1, 0, none, "2026-01-01T00:00:00Z"⟩], ⟨"https://ntfy.example.com", "alerts", ""⟩, fun _ _ => none, fun _ => none⟩ [] (20513 * 86400000) (fun _ => 0)).2 :=
  C4_second_sweep_idempotent ⟨[⟨"sub1", "Netflix", "EUR", 1, "2026-03-02", 1, 0, none, "2026-01-01T00:00:00Z"⟩], ⟨"https://ntfy.example.com", "alerts", ""⟩, fun _ _ => none, fun _ => none⟩ [] (20513 * 86400000) (20513 * 86400000) (fun _ => 0)
    ⟨"https://ntfy.example.com/alerts", ""⟩ rfl (by decide)
    (fun _ _ => rfl) (fun _ => rfl)

/-! ## Claim C6: candidate query -/

/-- C6: for each reminder window, the candidate query returns exactly the
    subscriptions that are not archived, have reminders enabled, and whose
    next charge date is the window target (today plus the window offset),
    ordered by charge date and then by creation order. -/
theorem C6_candidate_query (subs : List ReminderSubscriptionRow)
    (todayIso : String) (o : Int) (ho : o ∈ reminderWindows) :
    ((selectSubscriptionsByDate subs (addDaysToIsoDate todayIso o)).Perm
      (subs.filter (fun s => s.archived == 0 && s.remind_cancel == 1 &&
        s.next_charge_date == addDaysToIsoDate todayIso o))) ∧
    (∀ s, s ∈ selectSubscriptionsByDate subs (addDaysToIsoDate todayIso o) ↔
      (s ∈ subs ∧ s.archived = 0 ∧ s.remind_cancel = 1 ∧
        s.next_charge_date = addDaysToIsoDate todayIso o)) ∧
    (selectSubscriptionsByDate subs (addDaysToIsoDate todayIso o)).Sorted subLe := by
  unfold selectSubscriptionsByDate
  refine ⟨List.perm_insertionSort subLe _, ?_, List.sorted_insertionSort subLe _⟩
  intro s
  rw [(List.perm_insertionSort subLe _).mem_iff, List.mem_filter]
  simp only [Bool.and_eq_true, beq_iff_eq]
  constructor
  · rintro ⟨h1, ⟨h2, h3⟩, h4⟩
    exact ⟨h1, h2, h3, h4⟩
  · rintro ⟨h1, h2, h3, h4⟩
    exact ⟨h1, ⟨h2, h3⟩, h4⟩

/-- Witness for C6 on a two-row store, window one. -/
theorem C6_candidate_query_witness :
    ((selectSubscriptionsByDate
        [⟨"a", "A", "EUR", 1, "2026-03-02", 1, 1, none, "2026-01-01"⟩,
         ⟨"b", "B", "EUR", 1, "2026-03-02", 1, 0, none, "2026-01-02"⟩]
        (addDaysToIsoDate "2026-03-01" 1)).Perm
      ([⟨"a", "A", "EUR", 1, "2026-03-02", 1, 1, none, "2026-01-01"⟩,
        ⟨"b", "B", "EUR", 1, "2026-03-02", 1, 0, none, "2026-01-02"⟩].filter
        (fun s => s.archived == 0 && s.remind_cancel == 1 &&
          s.next_charge_date == addDaysToIsoDate "2026-03-01" 1))) ∧
    (∀ s, s ∈ selectSubscriptionsByDate
        [⟨"a", "A", "EUR", 1, "2026-03-02", 1, 1, none, "2026-01-01"⟩,
         ⟨"b", "B", "EUR", 1, "2026-03-02", 1, 0, none, "2026-01-02"⟩]
        (addDaysToIsoDate "2026-03-01" 1) ↔
      (s ∈ [⟨"a", "A", "EUR", 1, "2026-03-02", 1, 1, none, "2026-01-01"⟩,
            ⟨"b", "B", "EUR", 1, "2026-03-02", 1, 0, none, "2026-01-02"⟩] ∧
        s.archived = 0 ∧ s.remind_cancel = 1 ∧
        s.next_charge_date = addDaysToIsoDate "2026-03-01" 1)) ∧
    (selectSubscriptionsByDate
        [⟨"a", "A", "EUR", 1, "2026-03-02", 1, 1, none, "2026-01-01"⟩,
         ⟨"b", "B", "EUR", 1, "2026-03-02", 1, 0, none, "2026-01-02"⟩]
        (addDaysToIsoDate "2026-03-01" 1)).Sorted subLe :=
  C6_candidate_query
    [⟨"a", "A", "EUR", 1, "2026-03-02", 1, 1, none, "2026-01-01"⟩,
     ⟨"b", "B", "EUR", 1, "2026-03-02", 1, 0, none, "2026-01-02"⟩]
    "2026-03-01" 1 (by decide)

/-! ## URL model lemmas -/

/-- C10: with any non-null override object the stored settings are never
    consulted: the settings handed to resolution are exactly the trimmed
    override fields (empty when absent), the resolved settings and the
    outcome do not depend on the stored settings at all, and an override
    that omits the URL throws the missing-URL configuration error whatever
    is stored. -/
theorem C10_override_ignores_stored (o : NtfyOverride)
    (stored stored2 : NtfySettings) :
    testNotificationSettings (some o) stored =
      ⟨(o.ntfyUrl.map jsTrim).getD "", (o.ntfyTopic.map jsTrim).getD "",
        (o.ntfyBearerToken.map jsTrim).getD ""⟩ ∧
    testNotificationSettings (some o) stored =
      testNotificationSettings (some o) stored2 ∧
    sendTestNotification (some o) stored = sendTestNotification (some o) stored2 ∧
    (o.ntfyUrl = none → sendTestNotification (some o) stored = .error
      "ntfy configuration is missing: ntfy_url is required. Reminder send skipped.") := by
  refine ⟨rfl, rfl, rfl, ?_⟩
  intro hurl
  simp only [sendTestNotification, testNotificationSettings, hurl]
  rfl

/-! ## Scheduler lemmas -/

/-- Under a constant whole-second zone offset, at an instant aligned to
    whole seconds in a rendered-range year, the probed offset is exact:
    the getDateTimeParts fields recombine to the local instant. -/
theorem getTimeZoneOffsetMs_const (off : Int → Int) (o t : Int)
    (hoff : ∀ s, off s = o)
    (hmod : (t + o) % 1000 = 0)
    (hlo : -683003 ≤ (t + o) / 86400000) (hhi : (t + o) / 86400000 ≤ 2932896) :
    getTimeZoneOffsetMs off t = o := by
  have hyr := civilFromDays_year_range ((t + o) / 86400000) hlo hhi
  obtain ⟨hz, hm1, hm2, hd1, hd2⟩ := civilFromDays_spec ((t + o) / 86400000)
  unfold getTimeZoneOffsetMs getDateTimeParts jsDateUTCMs
  rw [hoff t]
  have hadj : jsAdjustYear (civilFromDays ((t + o) / 86400000)).year =
      (civilFromDays ((t + o) / 86400000)).year := by
    unfold jsAdjustYear
    rw [if_neg (by omega)]
  simp only []
  rw [hadj, jsMakeDay_eq _ _ _ hm1 hm2, hz]
  generalize hX : t + o = X at hmod hlo hhi ⊢
  omega

/-- Under a constant whole-second offset bounded by fourteen hours, the
    probing loop of zonedDateTimeToUtcMs converges to the exact instant of
    the requested local wall-clock time. -/
theorem zonedDateTimeToUtcMs_const (off : Int → Int) (o y m d : Int)
    (hoff : ∀ s, off s = o)
    (ho : o % 1000 = 0) (hob : o.natAbs ≤ 50400000)
    (hy1 : 100 ≤ y) (hy2 : y ≤ 9999) (hm1 : 1 ≤ m) (hm2 : m ≤ 12)
    (hj1 : -683002 ≤ daysFromCivil y m d) (hj2 : daysFromCivil y m d ≤ 2932895) :
    zonedDateTimeToUtcMs y m d 5 30 off =
      daysFromCivil y m d * 86400000 + 19800000 - o := by
  have hadj : jsAdjustYear y = y := by
    unfold jsAdjustYear
    rw [if_neg (by omega)]
  have hU : jsDateUTCMs y (m - 1) d 5 30 0 =
      daysFromCivil y m d * 86400000 + 19800000 := by
    unfold jsDateUTCMs
    rw [hadj, jsMakeDay_eq _ _ _ hm1 hm2]
    ring
  unfold zonedDateTimeToUtcMs
  rw [hU]
  generalize hj : daysFromCivil y m d = j at hj1 hj2
  have hG1 : getTimeZoneOffsetMs off (j * 86400000 + 19800000) = o := by
    refine getTimeZoneOffsetMs_const off o _ hoff (by omega) (by omega) (by omega)
  by_cases hzero : o = 0
  · subst hzero
    unfold zonedLoop
    rw [hG1]
    rw [if_pos (by omega)]
  · have habs : 1000 ≤ o.natAbs := by omega
    unfold zonedLoop
    rw [hG1]
    rw [if_neg (by omega)]
    have hG2 : getTimeZoneOffsetMs off (j * 86400000 + 19800000 - o) = o := by
      refine getTimeZoneOffsetMs_const off o _ hoff (by omega) (by omega) (by omega)
    unfold zonedLoop
    rw [hG2]
    rw [if_pos (by omega)]

/-! ## Claim C7: next scheduled run -/

/-- C7: under a constant whole-second zone offset of at most fourteen
    hours, with the local day in years 100..9998: the computed next run
    instant has local wall-clock time 05:30:00; its local date is today if
    the current local time is before 05:30 and tomorrow otherwise; the
    instant is strictly in the future; and the armed timer delay is
    max(one second, target minus now). -/
theorem C7_next_daily_run (nowMs o : Int) (off : Int → Int)
    (hoff : ∀ t, off t = o)
    (ho : o % 1000 = 0)
    (hob : o.natAbs ≤ 50400000)
    (hk1 : daysFromCivil 100 1 1 + 1 ≤ (nowMs + o) / 86400000)
    (hk2 : (nowMs + o) / 86400000 + 1 ≤ daysFromCivil 9998 12 31) :
    ((getDateTimeParts (computeNextDailyRunAtMs nowMs off) off).hour = SCHEDULE_HOUR ∧
     (getDateTimeParts (computeNextDailyRunAtMs nowMs off) off).minute = SCHEDULE_MINUTE ∧
     (getDateTimeParts (computeNextDailyRunAtMs nowMs off) off).second = 0) ∧
    ((getDateTimeParts nowMs off).hour > SCHEDULE_HOUR ∨
      ((getDateTimeParts nowMs off).hour = SCHEDULE_HOUR ∧
        (getDateTimeParts nowMs off).minute ≥ SCHEDULE_MINUTE) →
      computeNextDailyRunAtMs nowMs off =
        ((nowMs + o) / 86400000 + 1) * 86400000 + 19800000 - o ∧
      ((getDateTimeParts (computeNextDailyRunAtMs nowMs off) off).year,
       (getDateTimeParts (computeNextDailyRunAtMs nowMs off) off).month,
       (getDateTimeParts (computeNextDailyRunAtMs nowMs off) off).day) =
        ((civilFromDays ((nowMs + o) / 86400000 + 1)).year,
         (civilFromDays ((nowMs + o) / 86400000 + 1)).month,
         (civilFromDays ((nowMs + o) / 86400000 + 1)).day)) ∧
    (¬((getDateTimeParts nowMs off).hour > SCHEDULE_HOUR ∨
      ((getDateTimeParts nowMs off).hour = SCHEDULE_HOUR ∧
        (getDateTimeParts nowMs off).minute ≥ SCHEDULE_MINUTE)) →
      computeNextDailyRunAtMs nowMs off =
        ((nowMs + o) / 86400000) * 86400000 + 19800000 - o ∧
      ((getDateTimeParts (computeNextDailyRunAtMs nowMs off) off).year,
       (getDateTimeParts (computeNextDailyRunAtMs nowMs off) off).month,
       (getDateTimeParts (computeNextDailyRunAtMs nowMs off) off).day) =
        ((getDateTimeParts nowMs off).year, (getDateTimeParts nowMs off).month,
         (getDateTimeParts nowMs off).day)) ∧
    nowMs < computeNextDailyRunAtMs nowMs off ∧
    scheduleDelayMs nowMs off =
      max 1000 (computeNextDailyRunAtMs nowMs off - nowMs) := by
  have h100 : daysFromCivil 100 1 1 = -683003 := by decide
  have h9998 : daysFromCivil 9998 12 31 = 2932531 := by decide
  rw [h100] at hk1
  rw [h9998] at hk2
  have hP : getDateTimeParts nowMs off =
      ⟨(civilFromDays ((nowMs + o) / 86400000)).year,
       (civilFromDays ((nowMs + o) / 86400000)).month,
       (civilFromDays ((nowMs + o) / 86400000)).day,
       (nowMs + o) % 86400000 / 3600000,
       (nowMs + o) % 86400000 / 60000 % 60,
       (nowMs + o) % 86400000 / 1000 % 60⟩ := by
    unfold getDateTimeParts
    rw [hoff nowMs]
  have hyrk := civilFromDays_year_range ((nowMs + o) / 86400000) (by omega) (by omega)
  have hyrk1 := civilFromDays_year_range ((nowMs + o) / 86400000 + 1) (by omega) (by omega)
  obtain ⟨hzk, hm1k, hm2k, hd1k, hd2k⟩ := civilFromDays_spec ((nowMs + o) / 86400000)
  obtain ⟨hzk1, hm1k1, hm2k1, hd1k1, hd2k1⟩ :=
    civilFromDays_spec ((nowMs + o) / 86400000 + 1)
  have htom : addDaysToYmd (civilFromDays ((nowMs + o) / 86400000)).year
      (civilFromDays ((nowMs + o) / 86400000)).month
      (civilFromDays ((nowMs + o) / 86400000)).day 1 =
      civilFromDays ((nowMs + o) / 86400000 + 1) := by
    unfold addDaysToYmd
    rw [show jsAdjustYear (civilFromDays ((nowMs + o) / 86400000)).year =
        (civilFromDays ((nowMs + o) / 86400000)).year from by
      unfold jsAdjustYear
      rw [if_neg (by omega)]]
    rw [jsMakeDay_eq _ _ _ hm1k hm2k, daysFromCivil_day_add, hzk]
  have hzoned1 : zonedDateTimeToUtcMs
      (civilFromDays ((nowMs + o) / 86400000 + 1)).year
      (civilFromDays ((nowMs + o) / 86400000 + 1)).month
      (civilFromDays ((nowMs + o) / 86400000 + 1)).day 5 30 off =
      ((nowMs + o) / 86400000 + 1) * 86400000 + 19800000 - o := by
    rw [zonedDateTimeToUtcMs_const off o _ _ _ hoff ho hob
      (by omega) (by omega) hm1k1 hm2k1 (by rw [hzk1]; omega) (by rw [hzk1]; omega),
      hzk1]
  have hzoned0 : zonedDateTimeToUtcMs
      (civilFromDays ((nowMs + o) / 86400000)).year
      (civilFromDays ((nowMs + o) / 86400000)).month
      (civilFromDays ((nowMs + o) / 86400000)).day 5 30 off =
      ((nowMs + o) / 86400000) * 86400000 + 19800000 - o := by
    rw [zonedDateTimeToUtcMs_const off o _ _ _ hoff ho hob
      (by omega) (by omega) hm1k hm2k (by rw [hzk]; omega) (by rw [hzk]; omega),
      hzk]
  have hTpass : ((getDateTimeParts nowMs off).hour > SCHEDULE_HOUR ∨
      ((getDateTimeParts nowMs off).hour = SCHEDULE_HOUR ∧
        (getDateTimeParts nowMs off).minute ≥ SCHEDULE_MINUTE)) →
      computeNextDailyRunAtMs nowMs off =
        ((nowMs + o) / 86400000 + 1) * 86400000 + 19800000 - o := by
    intro hp
    rw [hP] at hp
    simp only [SCHEDULE_HOUR, SCHEDULE_MINUTE] at hp
    simp only [computeNextDailyRunAtMs, hP, SCHEDULE_HOUR, SCHEDULE_MINUTE]
    rw [if_pos hp, htom]
    exact hzoned1
  have hTnot : (¬((getDateTimeParts nowMs off).hour > SCHEDULE_HOUR ∨
      ((getDateTimeParts nowMs off).hour = SCHEDULE_HOUR ∧
        (getDateTimeParts nowMs off).minute ≥ SCHEDULE_MINUTE))) →
      computeNextDailyRunAtMs nowMs off =
        ((nowMs + o) / 86400000) * 86400000 + 19800000 - o := by
    intro hp
    rw [hP] at hp
    simp only [SCHEDULE_HOUR, SCHEDULE_MINUTE] at hp
    simp only [computeNextDailyRunAtMs, hP, SCHEDULE_HOUR, SCHEDULE_MINUTE]
    rw [if_neg hp]
    exact hzoned0
  have hQ : ∀ j : Int, getDateTimeParts (j * 86400000 + 19800000 - o) off =
      ⟨(civilFromDays j).year, (civilFromDays j).month, (civilFromDays j).day,
       5, 30, 0⟩ := by
    intro j
    simp only [getDateTimeParts, hoff]
    have harg : j * 86400000 + 19800000 - o + o = j * 86400000 + 19800000 := by
      ring
    rw [harg]
    have hdiv : (j * 86400000 + 19800000) / 86400000 = j := by omega
    have hmod : (j * 86400000 + 19800000) % 86400000 = 19800000 := by omega
    rw [hdiv, hmod]
    rfl
  by_cases hpass : ((getDateTimeParts nowMs off).hour > SCHEDULE_HOUR ∨
      ((getDateTimeParts nowMs off).hour = SCHEDULE_HOUR ∧
        (getDateTimeParts nowMs off).minute ≥ SCHEDULE_MINUTE))
  · have hT := hTpass hpass
    rw [hP] at hpass
    refine ⟨?_, fun _ => ⟨hT, ?_⟩, fun hcon => absurd (by rw [hP]; exact hpass) hcon, ?_, rfl⟩
    · rw [hT, hQ]
      exact ⟨rfl, rfl, rfl⟩
    · rw [hT, hQ]
    · rw [hT]
      simp only [SCHEDULE_HOUR, SCHEDULE_MINUTE] at hpass
      omega
  · have hT := hTnot hpass
    rw [hP] at hpass
    refine ⟨?_, fun hcon => absurd hcon (by rw [hP]; exact hpass), fun _ => ⟨hT, ?_⟩, ?_, rfl⟩
    · rw [hT, hQ]
      exact ⟨rfl, rfl, rfl⟩
    · rw [hT, hQ, hP]
    · rw [hT]
      simp only [SCHEDULE_HOUR, SCHEDULE_MINUTE] at hpass
      push_neg at hpass
      omega

theorem C10_override_ignores_stored_witness :
    testNotificationSettings (some ⟨some " https://a.example ", none, some " t "⟩)
        ⟨"https://ntfy.example.com", "stored", "tok"⟩ =
      ⟨"https://a.example", "", "t"⟩ ∧
    sendTestNotification (some ⟨some " https://a.example ", none, some " t "⟩)
        ⟨"https://ntfy.example.com", "stored", "tok"⟩ =
      sendTestNotification (some ⟨some " https://a.example ", none, some " t "⟩)
        ⟨"https://other.example.org", "other", ""⟩ ∧
    sendTestNotification (some ⟨none, some " alerts ", none⟩)
        ⟨"https://ntfy.example.com", "stored", "tok"⟩ = .error
      "ntfy configuration is missing: ntfy_url is required. Reminder send skipped." :=
  ⟨(C10_override_ignores_stored ⟨some " https://a.example ", none, some " t "⟩
      ⟨"https://ntfy.example.com", "stored", "tok"⟩
      ⟨"https://other.example.org", "other", ""⟩).1,
   (C10_override_ignores_stored ⟨some " https://a.example ", none, some " t "⟩
      ⟨"https://ntfy.example.com", "stored", "tok"⟩
      ⟨"https://other.example.org", "other", ""⟩).2.2.1,
   (C10_override_ignores_stored ⟨none, some " alerts ", none⟩
      ⟨"https://ntfy.example.com", "stored", "tok"⟩
      ⟨"https://ntfy.example.com", "stored", "tok"⟩).2.2.2 rfl⟩

theorem C7_next_daily_run_witness :
    20513 * 86400000 + 3600000 <
      computeNextDailyRunAtMs (20513 * 86400000 + 3600000) (fun _ => 0) ∧
    scheduleDelayMs (20513 * 86400000 + 3600000) (fun _ => 0) =
      max 1000 (computeNextDailyRunAtMs (20513 * 86400000 + 3600000) (fun _ => 0) -
        (20513 * 86400000 + 3600000)) := by
  have h := C7_next_daily_run (20513 * 86400000 + 3600000) 0 (fun _ => 0)
    (fun t => rfl) (by decide) (by decide) (by decide) (by decide)
  exact ⟨h.2.2.2.1, h.2.2.2.2⟩

end Quifin
